import Mathlib

set_option autoImplicit false

/-!
Verification of the OSC99 library (OSC 1.0 codec + SLIP framing) against its
natural-language specification.  The C sources are shallowly embedded: byte
buffers become `List Nat` (each element a byte value 0..255), C structs become
Lean structures, fallible functions return `Except OscError` results, and
functions that mutate a struct through a pointer return the updated structure.
All machine integers are modelled as `Nat` with explicit bounds where the C
code performs signedness or overflow checks.
-/

namespace Osc99

/-- MAX_TRANSPORT_SIZE from OscCommon.h. -/
def MAX_TRANSPORT_SIZE : Nat := 1472

/-- MIN_OSC_MESSAGE_SIZE from OscMessage.h: sizeof("/\0\0\0,\0\0") = 8. -/
def MIN_OSC_MESSAGE_SIZE : Nat := 8

/-- MAX_OSC_MESSAGE_SIZE from OscMessage.h. -/
def MAX_OSC_MESSAGE_SIZE : Nat := MAX_TRANSPORT_SIZE

/-- MAX_OSC_ADDRESS_PATTERN_LENGTH from OscMessage.h. -/
def MAX_OSC_ADDRESS_PATTERN_LENGTH : Nat := 64

/-- MAX_NUMBER_OF_ARGUMENTS from OscMessage.h. -/
def MAX_NUMBER_OF_ARGUMENTS : Nat := 16

/-- MAX_OSC_TYPE_TAG_STRING_LENGTH = 1 + MAX_NUMBER_OF_ARGUMENTS. -/
def MAX_OSC_TYPE_TAG_STRING_LENGTH : Nat := 1 + MAX_NUMBER_OF_ARGUMENTS

/-- MAX_ARGUMENTS_SIZE from OscMessage.h:
MAX_OSC_MESSAGE_SIZE - (MAX_OSC_ADDRESS_PATTERN_LENGTH + 4)
                     - (MAX_OSC_TYPE_TAG_STRING_LENGTH + 4) = 1383. -/
def MAX_ARGUMENTS_SIZE : Nat :=
  MAX_OSC_MESSAGE_SIZE - (MAX_OSC_ADDRESS_PATTERN_LENGTH + 4)
    - (MAX_OSC_TYPE_TAG_STRING_LENGTH + 4)

/-- MIN_OSC_BUNDLE_SIZE from OscBundle.h: sizeof("#bundle") + sizeof(OscTimeTag) = 16. -/
def MIN_OSC_BUNDLE_SIZE : Nat := 16

/-- MAX_OSC_BUNDLE_SIZE from OscBundle.h. -/
def MAX_OSC_BUNDLE_SIZE : Nat := MAX_TRANSPORT_SIZE

/-- MAX_OSC_BUNDLE_ELEMENTS_SIZE from OscBundle.h: 1472 - 8 - 8 = 1456. -/
def MAX_OSC_BUNDLE_ELEMENTS_SIZE : Nat := MAX_OSC_BUNDLE_SIZE - 8 - 8

/-- MAX_OSC_PACKET_SIZE from OscPacket.h. -/
def MAX_OSC_PACKET_SIZE : Nat := MAX_TRANSPORT_SIZE

/-- The error codes of OscError.h, in declaration order. -/
inductive OscError where
  | OscErrorNone
  | OscErrorDestinationTooSmall
  | OscErrorSizeIsNotMultipleOfFour
  | OscErrorCallbackFunctionUndefined
  | OscErrorNotEnoughPartsInAddressPattern
  | OscErrorNoSlashAtStartOfMessage
  | OscErrorAddressPatternTooLong
  | OscErrorTooManyArguments
  | OscErrorArgumentsSizeTooLarge
  | OscErrorUndefinedAddressPattern
  | OscErrorMessageSizeTooSmall
  | OscErrorMessageSizeTooLarge
  | OscErrorSourceEndsBeforeEndOfAddressPattern
  | OscErrorSourceEndsBeforeStartOfTypeTagString
  | OscErrorTypeTagStringToLong
  | OscErrorSourceEndsBeforeEndOfTypeTagString
  | OscErrorUnexpectedEndOfSource
  | OscErrorNoArgumentsAvailable
  | OscErrorUnexpectedArgumentType
  | OscErrorMessageTooShortForArgumentType
  | OscErrorBundleFull
  | OscErrorBundleSizeTooSmall
  | OscErrorBundleSizeTooLarge
  | OscErrorNoHashAtStartOfBundle
  | OscErrorBundleElementNotAvailable
  | OscErrorNegativeBundleElementSize
  | OscErrorInvalidElementSize
  | OscErrorInvalidContents
  | OscErrorPacketSizeTooLarge
  | OscErrorContentsEmpty
  | OscErrorEncodedSlipPacketTooLong
  | OscErrorUnexpectedByteAfterSlipEsc
  | OscErrorDecodedSlipPacketTooLong
deriving DecidableEq, Repr

open OscError

/-- Big-endian 4-byte encoding of a 32-bit value, as written by the C code via
OscArgument32.byteStruct members byte3 (MSB) down to byte0 (LSB). -/
def uint32ToBeBytes (n : Nat) : List Nat :=
  [n / 2 ^ 24 % 256, n / 2 ^ 16 % 256, n / 2 ^ 8 % 256, n % 256]

/-- Big-endian decoding of a list of bytes (used for the 4-byte bundle element
size prefix and the 32/64-bit argument reads). -/
def beBytesToNat (l : List Nat) : Nat :=
  l.foldl (fun acc b => acc * 256 + b) 0

/-- OscMessage structure from OscMessage.h.  The three byte buffers are
modelled as lists whose lengths are the corresponding ...Length/...Size
members (the C stores the length separately but only the first length bytes
of each buffer are meaningful; the strings are null-terminated in C, so their
characters are non-zero in any well-formed struct). -/
structure OscMessage where
  oscAddressPattern : List Nat
  oscTypeTagString : List Nat
  arguments : List Nat
  oscTypeTagStringIndex : Nat
  argumentsIndex : Nat
deriving DecidableEq, Repr

/-- OscMessageInitialise with an empty address pattern: address empty, type
tag string ",", cursors at 1 (skip comma) and 0. -/
def oscMessageInitialiseBlank : OscMessage :=
  { oscAddressPattern := []
    oscTypeTagString := [44]
    arguments := []
    oscTypeTagStringIndex := 1
    argumentsIndex := 0 }

/-- TerminateOscString from OscMessage.c: append null characters (at least
one) until the string size is a multiple of 4; fail if the maximum size would
be exceeded.  The C do-while appends at `size` positions
`len, len+1, ..., len+count-1` where `count = 4 - len % 4` (4 when the length
is already a multiple of four, since the do-while body runs at least once),
failing as soon as a position reaches `maxOscStringSize`; hence it fails
exactly when `len + count > maxOscStringSize`. -/
def terminateOscString (oscString : List Nat) (maxOscStringSize : Nat) :
    Option (List Nat) :=
  let count := 4 - oscString.length % 4
  if oscString.length + count > maxOscStringSize then none
  else some (oscString ++ List.replicate count 0)

/-- OscMessageGetSize from OscMessage.c: address length + 1 rounded up to a
multiple of 4, plus type tag length + 1 rounded up, plus arguments size. -/
def oscMessageGetSize (m : OscMessage) : Nat :=
  let s1 := m.oscAddressPattern.length + 1
  let s1a := if s1 % 4 = 0 then s1 else s1 + (4 - s1 % 4)
  let s2 := s1a + m.oscTypeTagString.length + 1
  let s2a := if s2 % 4 = 0 then s2 else s2 + (4 - s2 % 4)
  s2a + m.arguments.length

/-- OscMessageToCharArray from OscMessage.c: write the address pattern,
null-terminate/pad to a multiple of four, write the type tag string,
null-terminate/pad, then write the raw argument bytes, checking the
destination size at each stage. -/
def oscMessageToCharArray (m : OscMessage) (destinationSize : Nat) :
    Except OscError (List Nat) :=
  if m.oscAddressPattern.length = 0 then .error OscErrorUndefinedAddressPattern
  else if m.oscAddressPattern.headD 0 ≠ 47 then .error OscErrorNoSlashAtStartOfMessage
  else if m.oscAddressPattern.length > destinationSize then .error OscErrorDestinationTooSmall
  else match terminateOscString m.oscAddressPattern destinationSize with
  | none => .error OscErrorDestinationTooSmall
  | some d1 =>
    if d1.length + m.oscTypeTagString.length > destinationSize then
      .error OscErrorDestinationTooSmall
    else match terminateOscString (d1 ++ m.oscTypeTagString) destinationSize with
    | none => .error OscErrorDestinationTooSmall
    | some d2 =>
      if d2.length + m.arguments.length > destinationSize then
        .error OscErrorDestinationTooSmall
      else .ok (d2 ++ m.arguments)

/-- The OSC address pattern copy loop of OscMessageInitialiseFromCharArray.
`rem` is the source suffix at the current index (the C loop maintains
`sourceIndex` with `rem = source.drop sourceIndex`; the check
`++sourceIndex >= numberOfBytes` is `rem.tail = []`).  Stops at the first
null byte, returning the copied address and the suffix starting at that null.
The C reads `source[sourceIndex]` only while `sourceIndex < numberOfBytes`,
so the empty-suffix case is unreachable from the guarded entry point. -/
def parseAddressLoop (rem : List Nat) (acc : List Nat) :
    Except OscError (List Nat × List Nat) :=
  match rem with
  | [] => .error OscErrorSourceEndsBeforeEndOfAddressPattern
  | c :: rest =>
    if c = 0 then .ok (acc, c :: rest)
    else if acc.length + 1 > MAX_OSC_ADDRESS_PATTERN_LENGTH then
      .error OscErrorAddressPatternTooLong
    else if rest = [] then .error OscErrorSourceEndsBeforeEndOfAddressPattern
    else parseAddressLoop rest (acc ++ [c])

/-- The comma scan of OscMessageInitialiseFromCharArray:
`while (source[sourceIndex - 1] != ',') { if (++sourceIndex >= numberOfBytes)
return error; }`.  `prev` is `source[sourceIndex - 1]` and `rem` the suffix at
`sourceIndex`; advancing moves the head of `rem` into `prev`. -/
def parseCommaScan (prev : Nat) (rem : List Nat) :
    Except OscError (List Nat) :=
  if prev = 44 then .ok rem
  else match rem with
  | [] => .error OscErrorSourceEndsBeforeStartOfTypeTagString
  | c :: rest =>
    if rest = [] then .error OscErrorSourceEndsBeforeStartOfTypeTagString
    else parseCommaScan c rest

/-- The type tag string copy loop of OscMessageInitialiseFromCharArray; same
shape as the address loop but bounded by MAX_OSC_TYPE_TAG_STRING_LENGTH and
starting from the "," left by OscMessageInitialise. -/
def parseTypeTagLoop (rem : List Nat) (acc : List Nat) :
    Except OscError (List Nat × List Nat) :=
  match rem with
  | [] => .error OscErrorSourceEndsBeforeEndOfTypeTagString
  | c :: rest =>
    if c = 0 then .ok (acc, c :: rest)
    else if acc.length + 1 > MAX_OSC_TYPE_TAG_STRING_LENGTH then
      .error OscErrorTypeTagStringToLong
    else if rest = [] then .error OscErrorSourceEndsBeforeEndOfTypeTagString
    else parseTypeTagLoop rest (acc ++ [c])

/-- The advance-to-arguments loop of OscMessageInitialiseFromCharArray:
`do { if (++sourceIndex > numberOfBytes) return error; } while (sourceIndex %
4 != 0)`.  Under the guard `numberOfBytes % 4 = 0` the index is
`numberOfBytes - rem.length`, so the loop consumes `rem.length % 4` bytes of
`rem` (or 4 when `rem.length` is already a multiple of four, the do-while
running at least once), failing exactly when it would run past the end. -/
def parseAlignScan (rem : List Nat) : Except OscError (List Nat) :=
  let count := if rem.length % 4 = 0 then 4 else rem.length % 4
  if count > rem.length then .error OscErrorUnexpectedEndOfSource
  else .ok (rem.drop count)

/-- OscMessageInitialiseFromCharArray from OscMessage.c. -/
def oscMessageInitialiseFromCharArray (source : List Nat) :
    Except OscError OscMessage :=
  if source.length % 4 ≠ 0 then .error OscErrorSizeIsNotMultipleOfFour
  else if source.length < MIN_OSC_MESSAGE_SIZE then .error OscErrorMessageSizeTooSmall
  else if source.length > MAX_OSC_MESSAGE_SIZE then .error OscErrorMessageSizeTooLarge
  else if source.headD 0 ≠ 47 then .error OscErrorNoSlashAtStartOfMessage
  else match parseAddressLoop source [] with
  | .error e => .error e
  | .ok (addr, rem1) =>
    -- the comma scan starts by inspecting source[sourceIndex - 1],
    -- the last address pattern character
    match parseCommaScan (addr.getLastD 0) rem1 with
    | .error e => .error e
    | .ok rem2 =>
      match parseTypeTagLoop rem2 [44] with
      | .error e => .error e
      | .ok (typeTag, rem3) =>
        match parseAlignScan rem3 with
        | .error e => .error e
        | .ok rem4 =>
          .ok { oscAddressPattern := addr
                oscTypeTagString := typeTag
                arguments := rem4
                oscTypeTagStringIndex := 1
                argumentsIndex := 0 }

/-- OSC type tag characters (OscTypeTag enum), as byte values. -/
def OscTypeTagInt32 : Nat := 105
def OscTypeTagFloat32 : Nat := 102
def OscTypeTagString : Nat := 115
def OscTypeTagBlob : Nat := 98
def OscTypeTagInt64 : Nat := 104
def OscTypeTagTimeTag : Nat := 116
def OscTypeTagDouble : Nat := 100
def OscTypeTagAlternateString : Nat := 83
def OscTypeTagCharacter : Nat := 99
def OscTypeTagRgbaColour : Nat := 114
def OscTypeTagMidiMessage : Nat := 109
def OscTypeTagTrue : Nat := 84
def OscTypeTagFalse : Nat := 70
def OscTypeTagNil : Nat := 78
def OscTypeTagInfinitum : Nat := 73
def OscTypeTagBeginArray : Nat := 91
def OscTypeTagEndArray : Nat := 93

/-- The byte `oscTypeTagString[oscTypeTagStringIndex]` read by every typed
accessor; reading at the string length yields the terminating null (0). -/
def typeTagByte (m : OscMessage) : Nat :=
  m.oscTypeTagString.getD m.oscTypeTagStringIndex 0

/-- OscMessageIsArgumentAvailable:
`oscTypeTagStringIndex <= oscTypeTagStringLength - 1` in size_t arithmetic;
when the length is 0 the subtraction wraps and the comparison is true. -/
def oscMessageIsArgumentAvailable (m : OscMessage) : Bool :=
  if m.oscTypeTagString.length = 0 then true
  else m.oscTypeTagStringIndex ≤ m.oscTypeTagString.length - 1

/-- OscMessageGetArgumentType: the tag character at the cursor, or the null
character when the cursor is past the end of the type tag string. -/
def oscMessageGetArgumentType (m : OscMessage) : Nat :=
  if m.oscTypeTagStringIndex > m.oscTypeTagString.length then 0
  else m.oscTypeTagString.getD m.oscTypeTagStringIndex 0

/-- Advance both cursors after a successful fixed-size read of n bytes. -/
def advanceCursors (m : OscMessage) (n : Nat) : OscMessage :=
  { m with argumentsIndex := m.argumentsIndex + n
           oscTypeTagStringIndex := m.oscTypeTagStringIndex + 1 }

/-- OscMessageGetInt32; the value is returned as the unsigned 32-bit
big-endian pattern (the sign reinterpretation is irrelevant to the claims). -/
def oscMessageGetInt32 (m : OscMessage) : Except OscError Nat × OscMessage :=
  if typeTagByte m = 0 then (.error OscErrorNoArgumentsAvailable, m)
  else if typeTagByte m ≠ OscTypeTagInt32 then (.error OscErrorUnexpectedArgumentType, m)
  else if m.argumentsIndex + 4 > m.arguments.length then
    (.error OscErrorMessageTooShortForArgumentType, m)
  else (.ok (beBytesToNat ((m.arguments.drop m.argumentsIndex).take 4)), advanceCursors m 4)

/-- OscMessageGetFloat32; the value is the raw 32-bit big-endian pattern (the
IEEE-754 interpretation is not modelled). -/
def oscMessageGetFloat32 (m : OscMessage) : Except OscError Nat × OscMessage :=
  if typeTagByte m = 0 then (.error OscErrorNoArgumentsAvailable, m)
  else if typeTagByte m ≠ OscTypeTagFloat32 then (.error OscErrorUnexpectedArgumentType, m)
  else if m.argumentsIndex + 4 > m.arguments.length then
    (.error OscErrorMessageTooShortForArgumentType, m)
  else (.ok (beBytesToNat ((m.arguments.drop m.argumentsIndex).take 4)), advanceCursors m 4)

/-- The copy loop of OscMessageGetString:
`do { destination[destinationIndex] = arguments[argumentsIndex];
      if (++destinationIndex > destinationSize) return DestinationTooSmall;
    } while (arguments[argumentsIndex++] != 0)`.
`rem` is the arguments suffix at the read cursor; a read past the buffer end
(possible in C, reading stale bytes) is modelled as reading 0.  Returns the
copied bytes (including the terminating null) and the number of argument
bytes consumed. -/
def oscStringCopyLoop : List Nat → List Nat → Nat →
    Except OscError (List Nat × Nat)
  | [], acc, destinationSize =>
    if acc.length + 1 > destinationSize then .error OscErrorDestinationTooSmall
    else .ok (acc ++ [0], 1)
  | c :: rest, acc, destinationSize =>
    if acc.length + 1 > destinationSize then .error OscErrorDestinationTooSmall
    else if c = 0 then .ok (acc ++ [c], 1)
    else match oscStringCopyLoop rest (acc ++ [c]) destinationSize with
      | .error e => .error e
      | .ok (a, n) => .ok (a, n + 1)

/-- The padding skip `while ((argumentsIndex % 4) != 0) { if (++argumentsIndex
> argumentsSize) return MessageTooShortForArgumentType; }` shared by
OscMessageGetString and OscMessageGetBlob: advance the index to the next
multiple of four (no step when already aligned), failing exactly when the
index would pass argumentsSize. -/
def skipPaddingTo4 (argumentsIndex argumentsSize : Nat) : Except OscError Nat :=
  let count := (4 - argumentsIndex % 4) % 4
  if argumentsIndex + count > argumentsSize then
    .error OscErrorMessageTooShortForArgumentType
  else .ok (argumentsIndex + count)

/-- OscMessageGetString (also accepts alternate strings). -/
def oscMessageGetString (m : OscMessage) (destinationSize : Nat) :
    Except OscError (List Nat) × OscMessage :=
  if typeTagByte m = 0 then (.error OscErrorNoArgumentsAvailable, m)
  else if typeTagByte m ≠ OscTypeTagString ∧ typeTagByte m ≠ OscTypeTagAlternateString then
    (.error OscErrorUnexpectedArgumentType, m)
  else if m.argumentsIndex + 4 > m.arguments.length then
    -- sizeof("\0\0\0") = 4
    (.error OscErrorMessageTooShortForArgumentType, m)
  else if 4 > destinationSize then (.error OscErrorDestinationTooSmall, m)
  else match oscStringCopyLoop (m.arguments.drop m.argumentsIndex) [] destinationSize with
  | .error e => (.error e, m)
  | .ok (dest, consumed) =>
    match skipPaddingTo4 (m.argumentsIndex + consumed) m.arguments.length with
    | .error e => (.error e, m)
    | .ok newIndex =>
      (.ok dest, { m with argumentsIndex := newIndex
                          oscTypeTagStringIndex := m.oscTypeTagStringIndex + 1 })

/-- OscMessageGetBlob: read a 4-byte big-endian size then that many bytes
then padding.  The C compares the size as int32/unsigned in mixed-signedness
expressions; blob sizes at or above 2^31 (impossible for well-formed data)
are not modelled bit-exactly. -/
def oscMessageGetBlob (m : OscMessage) (destinationSize : Nat) :
    Except OscError (Nat × List Nat) × OscMessage :=
  if typeTagByte m = 0 then (.error OscErrorNoArgumentsAvailable, m)
  else if typeTagByte m ≠ OscTypeTagBlob then (.error OscErrorUnexpectedArgumentType, m)
  else if m.argumentsIndex + 4 > m.arguments.length then
    (.error OscErrorMessageTooShortForArgumentType, m)
  else
    let sz := beBytesToNat ((m.arguments.drop m.argumentsIndex).take 4)
    if m.argumentsIndex + 4 + sz > m.arguments.length then
      (.error OscErrorMessageTooShortForArgumentType, m)
    else if sz > destinationSize then (.error OscErrorDestinationTooSmall, m)
    else match skipPaddingTo4 (m.argumentsIndex + 4 + sz) m.arguments.length with
    | .error e => (.error e, m)
    | .ok newIndex =>
      (.ok (sz, (m.arguments.drop (m.argumentsIndex + 4)).take sz),
       { m with argumentsIndex := newIndex
                oscTypeTagStringIndex := m.oscTypeTagStringIndex + 1 })

/-- OscMessageGetInt64; value returned as unsigned 64-bit big-endian pattern. -/
def oscMessageGetInt64 (m : OscMessage) : Except OscError Nat × OscMessage :=
  if typeTagByte m = 0 then (.error OscErrorNoArgumentsAvailable, m)
  else if typeTagByte m ≠ OscTypeTagInt64 then (.error OscErrorUnexpectedArgumentType, m)
  else if m.argumentsIndex + 8 > m.arguments.length then
    (.error OscErrorMessageTooShortForArgumentType, m)
  else (.ok (beBytesToNat ((m.arguments.drop m.argumentsIndex).take 8)), advanceCursors m 8)

/-- OscMessageGetTimeTag; the time tag is returned as its eight wire-order
bytes (byte7 = first byte read = most significant). -/
def oscMessageGetTimeTag (m : OscMessage) : Except OscError (List Nat) × OscMessage :=
  if typeTagByte m = 0 then (.error OscErrorNoArgumentsAvailable, m)
  else if typeTagByte m ≠ OscTypeTagTimeTag then (.error OscErrorUnexpectedArgumentType, m)
  else if m.argumentsIndex + 8 > m.arguments.length then
    (.error OscErrorMessageTooShortForArgumentType, m)
  else (.ok ((m.arguments.drop m.argumentsIndex).take 8), advanceCursors m 8)

/-- OscMessageGetDouble; value returned as the eight raw bytes (the IEEE-754
binary64 interpretation is not modelled). -/
def oscMessageGetDouble (m : OscMessage) : Except OscError (List Nat) × OscMessage :=
  if typeTagByte m = 0 then (.error OscErrorNoArgumentsAvailable, m)
  else if typeTagByte m ≠ OscTypeTagDouble then (.error OscErrorUnexpectedArgumentType, m)
  else if m.argumentsIndex + 8 > m.arguments.length then
    (.error OscErrorMessageTooShortForArgumentType, m)
  else (.ok ((m.arguments.drop m.argumentsIndex).take 8), advanceCursors m 8)

/-- OscMessageGetCharacter: a character argument occupies 4 bytes; only the
final byte is the character (`argumentsIndex += 3` then read one byte). -/
def oscMessageGetCharacter (m : OscMessage) : Except OscError Nat × OscMessage :=
  if typeTagByte m = 0 then (.error OscErrorNoArgumentsAvailable, m)
  else if typeTagByte m ≠ OscTypeTagCharacter then (.error OscErrorUnexpectedArgumentType, m)
  else if m.argumentsIndex + 4 > m.arguments.length then
    (.error OscErrorMessageTooShortForArgumentType, m)
  else (.ok (m.arguments.getD (m.argumentsIndex + 3) 0), advanceCursors m 4)

/-- RgbaColour from OscCommon.h (field values, one byte each). -/
structure RgbaColour where
  red : Nat
  green : Nat
  blue : Nat
  alpha : Nat
deriving DecidableEq, Repr

/-- MidiMessage from OscCommon.h. -/
structure MidiMessage where
  portID : Nat
  status : Nat
  data1 : Nat
  data2 : Nat
deriving DecidableEq, Repr

/-- OscMessageGetRgbaColour: the four argument bytes are read MSB-first into
byteStruct.byte3..byte0; in the little-endian union layout byte3 is red and
byte0 is alpha, so red is the first wire byte. -/
def oscMessageGetRgbaColour (m : OscMessage) : Except OscError RgbaColour × OscMessage :=
  if typeTagByte m = 0 then (.error OscErrorNoArgumentsAvailable, m)
  else if typeTagByte m ≠ OscTypeTagRgbaColour then (.error OscErrorUnexpectedArgumentType, m)
  else if m.argumentsIndex + 4 > m.arguments.length then
    (.error OscErrorMessageTooShortForArgumentType, m)
  else
    let a := m.arguments
    let i := m.argumentsIndex
    (.ok { red := a.getD i 0, green := a.getD (i+1) 0
           blue := a.getD (i+2) 0, alpha := a.getD (i+3) 0 }, advanceCursors m 4)

/-- OscMessageGetMidiMessage: portID is byte3 (first wire byte), data2 is
byte0 (last wire byte). -/
def oscMessageGetMidiMessage (m : OscMessage) : Except OscError MidiMessage × OscMessage :=
  if typeTagByte m = 0 then (.error OscErrorNoArgumentsAvailable, m)
  else if typeTagByte m ≠ OscTypeTagMidiMessage then (.error OscErrorUnexpectedArgumentType, m)
  else if m.argumentsIndex + 4 > m.arguments.length then
    (.error OscErrorMessageTooShortForArgumentType, m)
  else
    let a := m.arguments
    let i := m.argumentsIndex
    (.ok { portID := a.getD i 0, status := a.getD (i+1) 0
           data1 := a.getD (i+2) 0, data2 := a.getD (i+3) 0 }, advanceCursors m 4)

/-- OscMessageGetArgumentAsRgbaColour.  In the blob case the C source passes
`(char *) &rgbaColour` — the address of the local *pointer variable*, not of
the caller's struct — as the destination of OscMessageGetBlob, with
destination size `sizeof (RgbaColour)` = 4.  The four blob bytes therefore
overwrite the pointer cell on the callee stack and the caller-supplied struct
is never written; on success the function reports OscErrorNone with the
struct left untouched.  The model discards the copied bytes and returns the
input struct unchanged on that path. -/
def oscMessageGetArgumentAsRgbaColour (m : OscMessage) (rgbaColour : RgbaColour) :
    Except OscError RgbaColour × OscMessage :=
  if oscMessageIsArgumentAvailable m = false then (.error OscErrorNoArgumentsAvailable, m)
  else if oscMessageGetArgumentType m = OscTypeTagBlob then
    match oscMessageGetBlob m 4 with
    | (.error e, m1) => (.error e, m1)
    | (.ok (blobSize, _clobberedPointerBytes), m1) =>
      if blobSize ≠ 4 then (.error OscErrorUnexpectedEndOfSource, m1)
      else (.ok rgbaColour, m1)
  else if oscMessageGetArgumentType m = OscTypeTagRgbaColour then
    oscMessageGetRgbaColour m
  else (.error OscErrorUnexpectedArgumentType, m)

/-- OscMessageGetArgumentAsMidiMessage; same `(char *) &midiMessage`
pointer-cell clobber as OscMessageGetArgumentAsRgbaColour in the blob case. -/
def oscMessageGetArgumentAsMidiMessage (m : OscMessage) (midiMessage : MidiMessage) :
    Except OscError MidiMessage × OscMessage :=
  if oscMessageIsArgumentAvailable m = false then (.error OscErrorNoArgumentsAvailable, m)
  else if oscMessageGetArgumentType m = OscTypeTagBlob then
    match oscMessageGetBlob m 4 with
    | (.error e, m1) => (.error e, m1)
    | (.ok (blobSize, _clobberedPointerBytes), m1) =>
      if blobSize ≠ 4 then (.error OscErrorUnexpectedEndOfSource, m1)
      else (.ok midiMessage, m1)
  else if oscMessageGetArgumentType m = OscTypeTagMidiMessage then
    oscMessageGetMidiMessage m
  else (.error OscErrorUnexpectedArgumentType, m)

/-- The 8 bytes of OSC_BUNDLE_HEADER "#bundle" including the terminating
null. -/
def OSC_BUNDLE_HEADER : List Nat := [35, 98, 117, 110, 100, 108, 101, 0]

/-- OscBundle structure from OscBundle.h.  `oscBundleElements` models the
first oscBundleElementsSize bytes of the element buffer; the time tag is kept
as its eight wire-order bytes (byte7 = most significant first). -/
structure OscBundle where
  header : List Nat
  oscTimeTag : List Nat
  oscBundleElements : List Nat
  oscBundleElementsIndex : Nat
deriving DecidableEq, Repr

/-- OscBundleInitialise: write the header literal, store the time tag, zero
the element count (the element iteration index is left untouched by the C
function; the model keeps it at 0). -/
def oscBundleInitialise (oscTimeTag : List Nat) : OscBundle :=
  { header := OSC_BUNDLE_HEADER
    oscTimeTag := oscTimeTag
    oscBundleElements := []
    oscBundleElementsIndex := 0 }

/-- OscBundleGetRemainingCapacity:
`MAX_OSC_BUNDLE_ELEMENTS_SIZE - oscBundleElementsSize - sizeof(OscArgument32)`
computed in size_t, returning 0 when the (int-cast) result is negative. -/
def oscBundleGetRemainingCapacity (b : OscBundle) : Nat :=
  if b.oscBundleElements.length + 4 > MAX_OSC_BUNDLE_ELEMENTS_SIZE then 0
  else MAX_OSC_BUNDLE_ELEMENTS_SIZE - b.oscBundleElements.length - 4

/-- OscBundleGetSize: sizeof(OSC_BUNDLE_HEADER) + sizeof(OscTimeTag) +
oscBundleElementsSize. -/
def oscBundleGetSize (b : OscBundle) : Nat :=
  8 + 8 + b.oscBundleElements.length

/-- OscBundleToCharArray: header (8 bytes), time tag bytes byte7..byte0
(wire order), then the raw element bytes. -/
def oscBundleToCharArray (b : OscBundle) (destinationSize : Nat) :
    Except OscError (List Nat) :=
  if 8 + 8 + b.oscBundleElements.length > destinationSize then
    .error OscErrorDestinationTooSmall
  else .ok (b.header ++ b.oscTimeTag ++ b.oscBundleElements)

/-- OSC contents: a pointer to either an OscMessage or an OscBundle.  The C
code dispatches on the first byte of the pointed-to struct. -/
def OscContents := OscMessage ⊕ OscBundle

/-- The first byte of an OSC contents struct: oscAddressPattern[0] for a
message (0 when the address is empty), header[0] for a bundle. -/
def oscContentsFirstByte : OscContents → Nat
  | .inl m => m.oscAddressPattern.headD 0
  | .inr b => b.header.headD 0

/-- Size of OSC contents (OscMessageGetSize / OscBundleGetSize). -/
def oscContentsGetSize : OscContents → Nat
  | .inl m => oscMessageGetSize m
  | .inr b => oscBundleGetSize b

/-- OscBundleAddContents: reserve 4 bytes for the element size prefix,
serialize the contents into the element buffer limited by the remaining
capacity, then commit the big-endian size prefix followed by the serialized
bytes.  A struct whose first byte contradicts its static type (e.g. a message
whose address starts with '#') would make the C code reinterpret the struct
memory; that is outside the model and mapped to OscErrorInvalidContents. -/
def oscBundleAddContents (b : OscBundle) (oscContents : OscContents) :
    Except OscError OscBundle :=
  if b.oscBundleElements.length + 4 > MAX_OSC_BUNDLE_ELEMENTS_SIZE then
    .error OscErrorBundleFull
  else match oscContents with
  | .inl m =>
    if m.oscAddressPattern.headD 0 = 47 then
      match oscMessageToCharArray m (oscBundleGetRemainingCapacity b) with
      | .error e => .error e
      | .ok bytes =>
        .ok { b with oscBundleElements :=
                b.oscBundleElements ++ uint32ToBeBytes bytes.length ++ bytes }
    else .error OscErrorInvalidContents
  | .inr c =>
    if c.header.headD 0 = 35 then
      match oscBundleToCharArray c (oscBundleGetRemainingCapacity b) with
      | .error e => .error e
      | .ok bytes =>
        .ok { b with oscBundleElements :=
                b.oscBundleElements ++ uint32ToBeBytes bytes.length ++ bytes }
    else .error OscErrorInvalidContents

/-- OscBundleElement: a 4-byte size and the element contents. -/
structure OscBundleElement where
  size : Nat
  contents : List Nat
deriving DecidableEq, Repr

/-- OscBundleIsBundleElementAvailable:
`(oscBundleElementsIndex + sizeof(OscArgument32)) < oscBundleElementsSize`
(strictly less: exactly four remaining bytes do not count as an element). -/
def oscBundleIsBundleElementAvailable (b : OscBundle) : Bool :=
  b.oscBundleElementsIndex + 4 < b.oscBundleElements.length

/-- OscBundleGetBundleElement: read the 4-byte big-endian element size (a
value with the int32 sign bit set is "negative"), check it is a multiple of
four and fits, then yield the contents and advance the iteration index.  The
failed size checks leave the index advanced past the 4 size bytes, as in the
C code. -/
def oscBundleGetBundleElement (b : OscBundle) :
    Except OscError OscBundleElement × OscBundle :=
  if b.oscBundleElementsIndex + 4 ≥ b.oscBundleElements.length then
    (.error OscErrorBundleElementNotAvailable, b)
  else
    let sz := beBytesToNat ((b.oscBundleElements.drop b.oscBundleElementsIndex).take 4)
    let b4 := { b with oscBundleElementsIndex := b.oscBundleElementsIndex + 4 }
    if 2 ^ 31 ≤ sz then (.error OscErrorNegativeBundleElementSize, b4)
    else if sz % 4 ≠ 0 then (.error OscErrorSizeIsNotMultipleOfFour, b4)
    else if b.oscBundleElementsIndex + 4 + sz > b.oscBundleElements.length then
      (.error OscErrorInvalidElementSize, b4)
    else
      (.ok { size := sz
             contents := (b.oscBundleElements.drop (b.oscBundleElementsIndex + 4)).take sz },
       { b with oscBundleElementsIndex := b.oscBundleElementsIndex + 4 + sz })

/-- SLIP protocol bytes (OscSlip.c): END, ESC, ESC_END, ESC_ESC. -/
def SLIP_END : Nat := 0xC0
def SLIP_ESC : Nat := 0xDB
def SLIP_ESC_END : Nat := 0xDC
def SLIP_ESC_ESC : Nat := 0xDD

/-- OscPacket structure from OscPacket.h: the contents bytes (size = length)
and whether a processMessage callback has been assigned. -/
structure OscPacket where
  contents : List Nat
  processMessageInstalled : Bool
deriving DecidableEq, Repr

/-- The per-byte loop of OscSlipEncodePacket.  `acc` is the destination
prefix written so far.  Before each packet byte the C checks
`(encodedPacketSize + 1) > destinationSize`; END and ESC bytes are escaped as
two bytes (written without a second check), and the closing END after the
loop is written without any check, so the returned byte list can be longer
than the destination. -/
def oscSlipEncodeLoop : List Nat → List Nat → Nat → Except OscError (List Nat)
  | [], acc, _ => .ok (acc ++ [SLIP_END])
  | b :: rest, acc, destinationSize =>
    if acc.length + 1 > destinationSize then .error OscErrorDestinationTooSmall
    else if b = SLIP_END then
      oscSlipEncodeLoop rest (acc ++ [SLIP_ESC, SLIP_ESC_END]) destinationSize
    else if b = SLIP_ESC then
      oscSlipEncodeLoop rest (acc ++ [SLIP_ESC, SLIP_ESC_ESC]) destinationSize
    else oscSlipEncodeLoop rest (acc ++ [b]) destinationSize

/-- OscSlipEncodePacket: on success returns the bytes stored to the
destination, in order, starting at index 0. -/
def oscSlipEncodePacket (oscPacket : OscPacket) (destinationSize : Nat) :
    Except OscError (List Nat) :=
  oscSlipEncodeLoop oscPacket.contents [] destinationSize

/-- OscSlipDecoder structure from OscSlip.h: the current frame bytes
(`buffer` models the first bufferIndex bytes of the C array) and whether a
processPacket callback has been assigned. -/
structure OscSlipDecoder where
  buffer : List Nat
  processPacketInstalled : Bool
deriving DecidableEq, Repr

/-- OscSlipDecoderInitialise (with the callback subsequently assigned or
not). -/
def oscSlipDecoderInitialise (installed : Bool) : OscSlipDecoder :=
  { buffer := [], processPacketInstalled := installed }

/-- The frame decode loop of OscSlipDecoderProcessByte: translate bytes up to
the first END, unescaping ESC ESC_END / ESC ESC_ESC, into packet contents.
The C checks `oscPacket.size > MAX_OSC_PACKET_SIZE` after each stored byte.
An ESC as the very last buffered byte cannot occur (the frame ends with END),
so that case maps to OscErrorUnexpectedByteAfterSlipEsc like any other
non-escape successor. -/
def oscSlipDecodeFrame : List Nat → List Nat → Except OscError (List Nat)
  | [], acc => .ok acc
  | b :: rest, acc =>
    if b = SLIP_END then .ok acc
    else if b = SLIP_ESC then
      match rest with
      | [] => .error OscErrorUnexpectedByteAfterSlipEsc
      | e :: rest2 =>
        if e = SLIP_ESC_END then
          if acc.length + 1 > MAX_OSC_PACKET_SIZE then .error OscErrorDecodedSlipPacketTooLong
          else oscSlipDecodeFrame rest2 (acc ++ [SLIP_END])
        else if e = SLIP_ESC_ESC then
          if acc.length + 1 > MAX_OSC_PACKET_SIZE then .error OscErrorDecodedSlipPacketTooLong
          else oscSlipDecodeFrame rest2 (acc ++ [SLIP_ESC])
        else .error OscErrorUnexpectedByteAfterSlipEsc
    else
      if acc.length + 1 > MAX_OSC_PACKET_SIZE then .error OscErrorDecodedSlipPacketTooLong
      else oscSlipDecodeFrame rest (acc ++ [b])

/-- OscSlipDecoderProcessByte: append the byte to the buffer (discarding the
frame with an error when the buffer fills), return on a non-END byte, and on
END decode the frame and hand the packet to the callback.  The result is the
updated decoder, the packet delivered to the processPacket callback (if any),
and the returned error code. -/
def oscSlipDecoderProcessByte (d : OscSlipDecoder) (byte : Nat) :
    OscSlipDecoder × Option OscPacket × OscError :=
  let buffer1 := d.buffer ++ [byte]
  if buffer1.length ≥ MAX_TRANSPORT_SIZE then
    ({ d with buffer := [] }, none, OscErrorEncodedSlipPacketTooLong)
  else if byte ≠ SLIP_END then ({ d with buffer := buffer1 }, none, OscErrorNone)
  else
    let d2 := { d with buffer := [] }
    match oscSlipDecodeFrame buffer1 [] with
    | .error e => (d2, none, e)
    | .ok contents =>
      if d.processPacketInstalled = false then
        (d2, none, OscErrorCallbackFunctionUndefined)
      else (d2, some { contents := contents, processMessageInstalled := false }, OscErrorNone)

/-- Feed a byte sequence through the SLIP decoder, collecting every packet
delivered to the processPacket callback (in delivery order). -/
def oscSlipDecoderFeed : OscSlipDecoder → List Nat → OscSlipDecoder × List OscPacket
  | d, [] => (d, [])
  | d, b :: rest =>
    match oscSlipDecoderProcessByte d b with
    | (d1, delivered, _) =>
      match oscSlipDecoderFeed d1 rest with
      | (d2, packets) => (d2, delivered.toList ++ packets)

/-- A handler invocation: the time tag pointer passed to processMessage
(none for a bare message, the enclosing bundle's time tag bytes otherwise)
and the parsed message. -/
def Invocation := Option (List Nat) × OscMessage

mutual

/-- DeconstructContents from OscPacket.c.  Returns the list of processMessage
invocations made (in order) and the error returned (none = OscErrorNone);
when an error occurs, the invocations already made are kept, mirroring the
C side effects.  The bundle branch inlines OscBundleInitialiseFromCharArray:
its size/'#' checks, the time tag bytes source[8..15], and the element-bytes
do-while, which copies at least one byte and hence reads one byte past the
source when the bundle is exactly 16 bytes (modelled as a 0 byte; only its
existence, never its value, is observable through the element iteration). -/
def deconstructContents (src : List Nat) (oscTimeTag : Option (List Nat)) :
    List (Option (List Nat) × OscMessage) × Option OscError :=
  if src.length = 0 then ([], some OscErrorContentsEmpty)
  else if src.headD 0 = 47 then
    match oscMessageInitialiseFromCharArray src with
    | .error e => ([], some e)
    | .ok m => ([(oscTimeTag, m)], none)
  else if src.headD 0 = 35 then
    if src.length % 4 ≠ 0 then ([], some OscErrorSizeIsNotMultipleOfFour)
    else if src.length < MIN_OSC_BUNDLE_SIZE then ([], some OscErrorBundleSizeTooSmall)
    else if src.length > MAX_OSC_BUNDLE_SIZE then ([], some OscErrorBundleSizeTooLarge)
    else
      let ttBytes := (src.drop 8).take 8
      let area := if src.length = 16 then [0] else src.drop 16
      bundleElementsLoop area 0 ttBytes
  else ([], some OscErrorInvalidContents)
termination_by 2 * src.length
decreasing_by
  split
  · simp
    omega
  · have h16 : ¬ src.length < MIN_OSC_BUNDLE_SIZE := by assumption
    simp [MIN_OSC_BUNDLE_SIZE] at h16
    simp [List.length_drop]
    omega

/-- The element iteration of DeconstructContents: the do-while over
OscBundleIsBundleElementAvailable / OscBundleGetBundleElement (inlined on the
element byte area and iteration index), recursing into each element's
contents with the enclosing bundle's time tag and propagating the first
error. -/
def bundleElementsLoop (area : List Nat) (idx : Nat) (ttBytes : List Nat) :
    List (Option (List Nat) × OscMessage) × Option OscError :=
  if _h : idx + 4 < area.length then
    let sz := beBytesToNat ((area.drop idx).take 4)
    if 2 ^ 31 ≤ sz then ([], some OscErrorNegativeBundleElementSize)
    else if sz % 4 ≠ 0 then ([], some OscErrorSizeIsNotMultipleOfFour)
    else if idx + 4 + sz > area.length then ([], some OscErrorInvalidElementSize)
    else
      match deconstructContents ((area.drop (idx + 4)).take sz) (some ttBytes) with
      | (l, some e) => (l, some e)
      | (l, none) =>
        match bundleElementsLoop area (idx + 4 + sz) ttBytes with
        | (l2, e2) => (l ++ l2, e2)
  else ([], none)
termination_by 2 * area.length - idx
decreasing_by
  · simp only [List.length_take, List.length_drop]
    omega
  · omega

end

/-- OscPacketProcessMessages: requires the processMessage callback, then
deconstructs the packet contents with no enclosing time tag. -/
def oscPacketProcessMessages (p : OscPacket) :
    List (Option (List Nat) × OscMessage) × Option OscError :=
  if p.processMessageInstalled = false then
    ([], some OscErrorCallbackFunctionUndefined)
  else deconstructContents p.contents none

/-- The tree of OSC contents described by the spec: a packet's contents is a
message or a bundle; a bundle holds a time tag and an ordered list of
elements, each a message or a nested bundle.  Message leaves carry their wire
bytes. -/
inductive OscTree where
  | message (bytes : List Nat)
  | bundle (timeTag : List Nat) (elements : List OscTree)

mutual

/-- Serialize a tree to wire format: a message is its bytes; a bundle is
"#bundle\0", the 8 time tag bytes, then each element as a 4-byte big-endian
size followed by its serialization. -/
def serializeTree : OscTree → List Nat
  | .message bytes => bytes
  | .bundle timeTag elements =>
    OSC_BUNDLE_HEADER ++ timeTag ++ serializeTreeElements elements

def serializeTreeElements : List OscTree → List Nat
  | [] => []
  | t :: ts =>
    uint32ToBeBytes (serializeTree t).length ++ serializeTree t
      ++ serializeTreeElements ts

end

mutual

/-- The messages contained in a tree, in depth-first pre-order, each paired
with the time tag of its innermost enclosing bundle (`oscTimeTag` for a
message not inside any bundle). -/
def treeMessages : OscTree → Option (List Nat) →
    List (Option (List Nat) × OscMessage)
  | .message bytes, oscTimeTag =>
    match oscMessageInitialiseFromCharArray bytes with
    | .ok m => [(oscTimeTag, m)]
    | .error _ => []
  | .bundle timeTag elements, _ => treeMessagesList elements timeTag

def treeMessagesList : List OscTree → List Nat →
    List (Option (List Nat) × OscMessage)
  | [], _ => []
  | t :: ts, timeTag => treeMessages t (some timeTag) ++ treeMessagesList ts timeTag

end

mutual

/-- Well-formedness of a contents tree: message leaves parse successfully;
bundles have an 8-byte time tag and a serialized size within
MAX_OSC_BUNDLE_SIZE, and well-formed elements. -/
def wfTree : OscTree → Bool
  | .message bytes => (oscMessageInitialiseFromCharArray bytes).isOk
  | .bundle timeTag elements =>
    timeTag.length = 8
      && (OSC_BUNDLE_HEADER ++ timeTag ++ serializeTreeElements elements).length
           ≤ MAX_OSC_BUNDLE_SIZE
      && wfTreeList elements

def wfTreeList : List OscTree → Bool
  | [] => true
  | t :: ts => wfTree t && wfTreeList ts

end

/-!
OscAddress.c.  Patterns and addresses are the byte lists of their characters
(without the terminating null); reading the null terminator corresponds to
reading an exhausted list, modelled with a 0 default.  The matcher functions
mutate the two cursors through pointers; here they return the advanced
suffixes.  The C recursion (MatchStar ↔ MatchExpression) does not terminate
on every input (a curly-brace group with an empty alternative matched under a
star can loop for ever), so the mutually recursive cluster carries an
explicit fuel parameter, decremented at each call; the top-level entry points
supply more fuel than any terminating C run consumes, and every property
proved below is reached within the first step, independent of fuel. -/

/-- MatchBrackets: match a bracketed list (with optional `!` negation and
`-` ranges in either order) against the next address character.  Advances
both pointers past the construct regardless of match (the C unconditionally
increments the address pointer after the closing bracket).  Returns
(match, rest of pattern, rest of address); an unbalanced bracket reports
failure with the pointers unchanged (handled by the caller's restore). -/
def matchBracketsLoop (fuel : Nat) (p a : List Nat) (negatedList : Bool)
    (matched : Bool) : Option (Bool × List Nat) :=
  match fuel with
  | 0 => none
  | fuel + 1 =>
    match p with
    | [] => none -- **pattern = null: unbalanced brackets
    | c :: rest =>
      if c = 93 then some (matched, rest) -- ']'
      else if c = 47 then none -- '/': unbalanced brackets
      else
        -- hyphenated range: pattern[1] = '-' and pattern[2] is not ']'
        -- (reading pattern[2] as the null terminator when the list ends there,
        -- which the C rejects as unbalanced brackets)
        match rest with
        | [45] => none
        | 45 :: c2 :: rest2 =>
          if c2 ≠ 93 then
            if c2 = 47 then none
            else
              let lowerChar := min c c2
              let upperChar := max c c2
              let hit := lowerChar ≤ a.headD 0 ∧ a.headD 0 ≤ upperChar
              matchBracketsLoop fuel rest2 a negatedList
                (if hit then (if negatedList then false else true) else matched)
          else
            -- single character match ('-' immediately before ']')
            matchBracketsLoop fuel (45 :: c2 :: rest2) a negatedList
              (if c = a.headD 0 then (if negatedList then false else true) else matched)
        | _ =>
          matchBracketsLoop fuel rest a negatedList
            (if c = a.headD 0 then (if negatedList then false else true) else matched)

/-- MatchBrackets entry: skip '[', handle '!', run the list loop, then step
the address past the matched character. -/
def matchBrackets (p a : List Nat) : Bool × List Nat × List Nat :=
  match p with
  | 91 :: rest =>
    let (negated, body) :=
      match rest with
      | 33 :: rest2 => (true, rest2) -- '!'
      | _ => (false, rest)
    match matchBracketsLoop (body.length + 1) body a negated negated with
    | none => (false, p, a)
    | some (matched, restPattern) => (matched, restPattern, a.tail)
  | _ => (false, p, a)

/-- MatchCurlyBraces: try each comma-separated alternative inside the braces
with strncmp against the address (in partial mode the compared length is
capped by the remaining address length); remember whether any alternative
matched and the longest matching length; finally advance the pattern past the
closing '}' and the address past the longest match.  The loop cursor `p`
points at the '{' on entry and at the ',' separator afterwards, exactly as
the C `*oscAddressPattern` at the `while (**oscAddressPattern != '}')` check;
the alternative just after the cursor (which may be empty, including an empty
final alternative before the '}') is processed each iteration. -/
def matchCurlyBracesLoop (fuel : Nat) (p a : List Nat) (isPartialFlag : Bool)
    (matched : Bool) (matchedLen : Nat) : Option (Bool × Nat × List Nat) :=
  match fuel with
  | 0 => none
  | fuel + 1 =>
    match p with
    | [] => none -- **pattern = null: unbalanced curly braces
    | 125 :: rest => some (matched, matchedLen, rest) -- '}'
    | c :: body =>
      if c = 47 then none -- '/': unbalanced curly braces
      else
        -- scan past '{' or ',' to the next ',' or '}' to delimit the substring
        let sub := body.takeWhile (fun x => x ≠ 44 ∧ x ≠ 125)
        if sub.any (fun x => x = 47) then none -- '/' before ',' or '}'
        else match body.drop sub.length with
        | [] => none -- hit end of string: unbalanced curly braces
        | sep :: afterSep =>
          let len := if isPartialFlag then min sub.length a.length else sub.length
          let hit := a.take len = sub.take len
          let matched2 := matched ∨ hit
          let matchedLen2 := if hit ∧ len > matchedLen then len else matchedLen
          matchCurlyBracesLoop fuel (sep :: afterSep) a isPartialFlag matched2 matchedLen2

/-- MatchCurlyBraces entry: run the alternatives loop from the '{', then
advance the address by the longest matched substring length. -/
def matchCurlyBraces (p a : List Nat) (isPartialFlag : Bool) :
    Bool × List Nat × List Nat :=
  match p with
  | 123 :: _ =>
    match matchCurlyBracesLoop (p.length + 1) p a isPartialFlag false 0 with
    | none => (false, p, a)
    | some (matched, matchedLen, restPattern) =>
      (matched, restPattern, a.drop matchedLen)
  | _ => (false, p, a)

mutual

/-- MatchExpression: the while loop over the remaining pattern.  When the
address is exhausted in partial mode the match succeeds immediately; a star
delegates to MatchStar, anything else to MatchCharacter; when the pattern is
exhausted the match succeeds iff the address is too. -/
def matchExpression (fuel : Nat) (p a : List Nat) (isPartialFlag : Bool) : Bool :=
  match fuel with
  | 0 => false
  | fuel + 1 =>
    match p with
    | [] => a.isEmpty
    | c :: _ =>
      if a.isEmpty ∧ isPartialFlag then true
      else if c = 42 then -- '*'
        match matchStar fuel p a isPartialFlag with
        | none => false
        | some (p2, a2) => matchExpression fuel p2 a2 isPartialFlag
      else
        match matchCharacter fuel p a isPartialFlag with
        | (false, _, _) => false
        | (true, p2, a2) => matchExpression fuel p2 a2 isPartialFlag

/-- MatchStar: skip the stars; if the star ends the pattern part, consume the
address up to the next '/' or its end; otherwise repeatedly advance the
address to the next position where the character after the stars matches and
attempt to match the rest of the expression there, backtracking on failure.
Returns the advanced pattern/address on success, none on failure (the C
returns false and the caller aborts). -/
def matchStar (fuel : Nat) (p a : List Nat) (isPartialFlag : Bool) :
    Option (List Nat × List Nat) :=
  match fuel with
  | 0 => none
  | fuel + 1 =>
    let p1 := p.dropWhile (fun c => c = 42)
    match p1 with
    | [] => some (p1, a.dropWhile (fun c => c ≠ 47))
    | 47 :: _ => some (p1, a.dropWhile (fun c => c ≠ 47))
    | _ => matchStarSearch fuel p1 a isPartialFlag

/-- The do-while of MatchStar: find the next address position where
MatchCharacter succeeds (advancing one address character per failure, failing
at a '/' or the address end — except that in partial mode an exhausted
address succeeds), then try MatchExpression on the remainder, restoring the
cached cursors and resuming the search on failure. -/
def matchStarSearch (fuel : Nat) (p a : List Nat) (isPartialFlag : Bool) :
    Option (List Nat × List Nat) :=
  match fuel with
  | 0 => none
  | fuel + 1 =>
    match matchCharacter fuel p a isPartialFlag with
    | (false, _, _) =>
      match a with
      | [] => if isPartialFlag then some (p, a) else none
      | _ :: a2 =>
        if a2.headD 0 = 47 ∨ a2.isEmpty then
          if isPartialFlag ∧ a2.isEmpty then some (p, a2) else none
        else matchStarSearch fuel p a2 isPartialFlag
    | (true, p2, a2) =>
      if matchExpression fuel p2 a2 isPartialFlag then some (p2, a2)
      else matchStarSearch fuel p a2 isPartialFlag

/-- MatchCharacter: dispatch on the pattern head — bracket list, curly brace
list, or a single character ('?' matches any); on failure the cursors are
restored (returned unchanged). -/
def matchCharacter (fuel : Nat) (p a : List Nat) (isPartialFlag : Bool) :
    Bool × List Nat × List Nat :=
  match fuel with
  | 0 => (false, p, a)
  | _fuel + 1 =>
    match p.headD 0 with
    | 91 => matchBrackets p a -- '['
    | 93 => (false, p, a) -- ']': unbalanced brackets
    | 123 => matchCurlyBraces p a isPartialFlag -- '{'
    | 125 => (false, p, a) -- '}': unbalanced curly braces
    | c =>
      if c = a.headD 0 ∨ c = 63 then (true, p.tail, a.tail) -- '?'
      else (false, p, a)

end

/-- Fuel that strictly dominates the recursion depth of any terminating run
of the C matcher on the given inputs (each MatchExpression step consumes at
least one pattern character and each MatchStar search step one address
character). -/
def matcherFuel (p a : List Nat) : Nat :=
  4 * (p.length + 1) * (a.length + 1) + 16

/-- MatchLiteral: compare literal characters until a special character is
found (delegating to MatchExpression), the address ends (succeed in partial
mode, otherwise try trailing zero-width expressions), or the pattern ends
(succeed iff the address also ended). -/
def matchLiteral (p a : List Nat) (isPartialFlag : Bool) : Bool :=
  match p with
  | [] => a.isEmpty
  | c :: pr =>
    if a.isEmpty then
      if isPartialFlag then true
      else matchExpression (matcherFuel p a) p a isPartialFlag
    else
      if c = 63 ∨ c = 42 ∨ c = 91 ∨ c = 123 then
        matchExpression (matcherFuel p a) p a isPartialFlag
      else if c ≠ a.headD 0 then false
      else matchLiteral pr a.tail isPartialFlag

/-- OscAddressMatch: full match of a pattern against a literal address. -/
def oscAddressMatch (oscAddressPattern oscAddress : List Nat) : Bool :=
  matchLiteral oscAddressPattern oscAddress false

/-- OscAddressMatchPartial: match against a truncated address prefix. -/
def oscAddressMatchPartial (oscAddressPattern oscAddress : List Nat) : Bool :=
  matchLiteral oscAddressPattern oscAddress true

/-- OscAddressIsLiteral: no '?', '*', '[' or '{' in the pattern. -/
def oscAddressIsLiteral (oscAddressPattern : List Nat) : Bool :=
  oscAddressPattern.all (fun c => c ≠ 63 ∧ c ≠ 42 ∧ c ≠ 91 ∧ c ≠ 123)

/-- OscAddressGetNumberOfParts: the number of '/' characters. -/
def oscAddressGetNumberOfParts (oscAddressPattern : List Nat) : Nat :=
  (oscAddressPattern.filter (fun c => c = 47)).length

/-- The part-advance loop of OscAddressGetPartAtIndex:
`while (partCount < index + 1) { while (*p != 0) { if (*p == '/') {
partCount++; break; } p++; } if (*p == 0) return NotEnoughParts; }`.
The inner while leaves the cursor ON the found '/' (it breaks before the
increment), so every later outer iteration re-reads the same '/' and
increments partCount again without advancing; the cursor therefore parks at
the first '/' of the string whatever the index, and the error fires only when
the string contains no '/' at all. -/
def partAdvanceLoop (rem : List Nat) : Nat → Except OscError (List Nat)
  | 0 => .ok rem
  | remainingParts + 1 =>
    match rem.dropWhile (fun c => c ≠ 47) with
    | [] => .error OscErrorNotEnoughPartsInAddressPattern
    | c :: rest => partAdvanceLoop (c :: rest) remainingParts

/-- The copy loop of OscAddressGetPartAtIndex: copy characters until the
string ends or the character after the one just copied is '/'; fail when the
destination (including the final null terminator) would overflow.  Returns
the copied characters (the C also stores a terminating null). -/
def partCopyLoop (rem : List Nat) (acc : List Nat) (destinationSize : Nat) :
    Except OscError (List Nat) :=
  match rem with
  | [] => .ok acc
  | c :: rest =>
    if acc.length + 1 ≥ destinationSize then .error OscErrorDestinationTooSmall
    else if rest.headD 0 = 47 ∧ rest ≠ [] then .ok (acc ++ [c])
    else partCopyLoop rest (acc ++ [c]) destinationSize

/-- OscAddressGetPartAtIndex from OscAddress.c. -/
def oscAddressGetPartAtIndex (oscAddressPattern : List Nat) (index : Nat)
    (destinationSize : Nat) : Except OscError (List Nat) :=
  match partAdvanceLoop oscAddressPattern (index + 1) with
  | .error e => .error e
  | .ok rem => partCopyLoop rem [] destinationSize

/-!
Definitions supporting the claim statements: validity predicates, derived
operations, and the concrete inputs used by witnesses and counterexamples.
-/

/-- A message struct is valid in the sense of the spec data model: the
address pattern is non-empty, starts with '/', has length at most
MAX_OSC_ADDRESS_PATTERN_LENGTH and no interior null; the type tag string
starts with ',' and holds at most MAX_NUMBER_OF_ARGUMENTS tag characters,
none of them null; the arguments payload is within MAX_ARGUMENTS_SIZE and
padded to a multiple of four. -/
def oscMessageValid (m : OscMessage) : Bool :=
  m.oscAddressPattern.headD 0 = 47
    && m.oscAddressPattern.length ≤ MAX_OSC_ADDRESS_PATTERN_LENGTH
    && m.oscAddressPattern.all (fun c => c ≠ 0)
    && m.oscTypeTagString.headD 0 = 44
    && m.oscTypeTagString.length ≤ MAX_OSC_TYPE_TAG_STRING_LENGTH
    && m.oscTypeTagString.all (fun c => c ≠ 0)
    && m.arguments.length ≤ MAX_ARGUMENTS_SIZE
    && m.arguments.length % 4 = 0

/-- Serialize a message into a maximum-size packet and parse the bytes back,
as OscPacketInitialiseFromContents followed by DeconstructContents would. -/
def oscMessageRoundTrip (m : OscMessage) : Except OscError OscMessage :=
  match oscMessageToCharArray m MAX_OSC_PACKET_SIZE with
  | .error e => .error e
  | .ok bytes => oscMessageInitialiseFromCharArray bytes

/-- The two deconstruction cursors of a message agree. -/
def cursorsEq (m1 m2 : OscMessage) : Prop :=
  m1.oscTypeTagStringIndex = m2.oscTypeTagStringIndex
    ∧ m1.argumentsIndex = m2.argumentsIndex

/-- Structural well-formedness of contents passed to OscBundleAddContents: a
bundle struct carries its fixed 8-byte header and 8-byte time tag arrays. -/
def oscContentsWf : OscContents → Prop
  | .inl _ => True
  | .inr c => c.header.length = 8 ∧ c.oscTimeTag.length = 8

/-- The message "/," (address pattern of two characters '/' and ','), no
arguments: a valid message whose address ends in a comma. -/
def c1CounterMessage : OscMessage :=
  { oscAddressPattern := [47, 44], oscTypeTagString := [44], arguments := []
    oscTypeTagStringIndex := 1, argumentsIndex := 0 }

/-- The message "/t" with arguments int32 1, float32 2.5, string "hi", blob
[0xAA, 0xBB, 0xCC] (spec scenario 2). -/
def c1WitnessMessage : OscMessage :=
  { oscAddressPattern := [47, 116]
    oscTypeTagString := [44, 105, 102, 115, 98]
    arguments := [0, 0, 0, 1, 64, 32, 0, 0, 104, 105, 0, 0, 0, 0, 0, 3, 170, 187, 204, 0]
    oscTypeTagStringIndex := 1, argumentsIndex := 0 }

/-- Message "/a" with no arguments, as wire bytes (spec scenario 1). -/
def c2MessageA : OscTree := .message [47, 97, 0, 0, 44, 0, 0, 0]

/-- Message "/b" with int32 argument 7, as wire bytes. -/
def c2MessageB : OscTree := .message [47, 98, 0, 0, 44, 105, 0, 0, 0, 0, 0, 7]

/-- Message "/c" with string argument "x", as wire bytes. -/
def c2MessageC : OscTree := .message [47, 99, 0, 0, 44, 115, 0, 0, 120, 0, 0, 0]

/-- Bundle with time tag 0 containing "/c" (spec scenario 4, inner). -/
def c2InnerBundle : OscTree := .bundle [0, 0, 0, 0, 0, 0, 0, 0] [c2MessageC]

/-- Bundle with time tag 0x0000000100000000 (1 second) containing "/a", "/b"
and the nested zero-time-tag bundle (spec scenario 4). -/
def c2OuterBundle : OscTree :=
  .bundle [0, 0, 0, 1, 0, 0, 0, 0] [c2MessageA, c2MessageB, c2InnerBundle]

/-- A freshly initialised bundle with time tag zero. -/
def c4Bundle : OscBundle := oscBundleInitialise [0, 0, 0, 0, 0, 0, 0, 0]

/-- The message "/a" with no arguments (as a struct). -/
def c4Message : OscMessage :=
  { oscAddressPattern := [47, 97], oscTypeTagString := [44], arguments := []
    oscTypeTagStringIndex := 1, argumentsIndex := 0 }

/-- c4Bundle after adding c4Message: one element of size 8 behind its 4-byte
size prefix. -/
def c4BundleAfter : OscBundle :=
  { header := OSC_BUNDLE_HEADER
    oscTimeTag := [0, 0, 0, 0, 0, 0, 0, 0]
    oscBundleElements := [0, 0, 0, 8, 47, 97, 0, 0, 44, 0, 0, 0]
    oscBundleElementsIndex := 0 }

/-- A parsed message whose next argument is the 4-byte blob [9, 8, 7, 6]. -/
def c7Message : OscMessage :=
  { oscAddressPattern := [47, 120], oscTypeTagString := [44, 98]
    arguments := [0, 0, 0, 4, 9, 8, 7, 6]
    oscTypeTagStringIndex := 1, argumentsIndex := 0 }

/-- A parsed message with no arguments: every typed accessor fails with
OscErrorNoArgumentsAvailable. -/
def c9WitnessMessage : OscMessage :=
  { oscAddressPattern := [47, 120], oscTypeTagString := [44], arguments := []
    oscTypeTagStringIndex := 1, argumentsIndex := 0 }

/-- A parsed bundle whose element area is a single 4-byte size prefix
declaring a zero-length trailing element. -/
def c10Bundle : OscBundle :=
  { header := OSC_BUNDLE_HEADER
    oscTimeTag := [0, 0, 0, 0, 0, 0, 0, 0]
    oscBundleElements := [0, 0, 0, 0]
    oscBundleElementsIndex := 0 }

/-- The characters of "/example/oscAddress/pattern". -/
def c5Pattern : List Nat :=
  [47, 101, 120, 97, 109, 112, 108, 101, 47, 111, 115, 99, 65, 100, 100, 114,
   101, 115, 115, 47, 112, 97, 116, 116, 101, 114, 110]

/-- The characters of "/example". -/
def c5SlashExample : List Nat := [47, 101, 120, 97, 109, 112, 108, 101]

/-- The characters of "oscAddress" (the part the documentation promises at
index 1). -/
def c5OscAddressPart : List Nat :=
  [111, 115, 99, 65, 100, 100, 114, 101, 115, 115]

end Osc99

deriving instance DecidableEq for Except

namespace Osc99

open OscError

/-!
Claim theorems.
-/

/-- C3: for the packet with contents [0xC0, 0x00, 0xDB, 0xFF],
OscSlipEncodePacket produces exactly [0xDB, 0xDC, 0x00, 0xDB, 0xDD, 0xFF,
0xC0], and feeding those seven bytes one at a time to
OscSlipDecoderProcessByte with a handler installed invokes the handler
exactly once, with a packet whose contents equal the original four bytes. -/
theorem c3_slip_roundtrip :
    oscSlipEncodePacket
        { contents := [0xC0, 0x00, 0xDB, 0xFF], processMessageInstalled := false }
        MAX_OSC_PACKET_SIZE
      = .ok [0xDB, 0xDC, 0x00, 0xDB, 0xDD, 0xFF, 0xC0]
    ∧ (oscSlipDecoderFeed (oscSlipDecoderInitialise true)
        [0xDB, 0xDC, 0x00, 0xDB, 0xDD, 0xFF, 0xC0]).2
      = [{ contents := [0xC0, 0x00, 0xDB, 0xFF], processMessageInstalled := false }] := by
  decide

/-- C5 (code bug): OscAddressGetPartAtIndex("/example/oscAddress/pattern", 1)
copies "/example" (the leading slash and the characters of part 0) instead of
the documented "oscAddress"; it also succeeds at index 7 although the string
has only 3 slashes, instead of returning NotEnoughPartsInAddressPattern.  The
part-advance loop never steps past a found '/', so the cursor parks at the
first slash for every index. -/
theorem c5_part_at_index_bug :
    oscAddressGetPartAtIndex c5Pattern 1 16 = .ok c5SlashExample
    ∧ c5SlashExample ≠ c5OscAddressPart
    ∧ oscAddressGetPartAtIndex c5Pattern 7 16 = .ok c5SlashExample := by
  decide

/-- C6 counterexample: the pattern "x" does not start with '/', yet
OscAddressMatchPartial("x", "") returns true, refuting the claimed
equivalence. -/
theorem c6_counterexample :
    oscAddressMatchPartial [120] [] = true ∧ ¬ ([120] : List Nat).headD 0 = 47 := by
  decide

/-- C6 (amended): OscAddressMatchPartial(p, "") returns true for every
pattern p: with an exhausted address, MatchLiteral returns true immediately
in partial mode (and an empty pattern matches the empty address). -/
theorem c6_match_partial_empty_address (p : List Nat) :
    oscAddressMatchPartial p [] = true := by
  cases p <;> simp [oscAddressMatchPartial, matchLiteral]

/-- C7 (code bug): on a message whose next argument is the 4-byte blob
[9, 8, 7, 6], OscMessageGetArgumentAsRgbaColour and
OscMessageGetArgumentAsMidiMessage return OscErrorNone but leave the
caller-supplied struct untouched (here the all-zero struct), which differs
from the struct the blob's four bytes denote: the C passes the address of the
local pointer variable instead of the struct, so OscMessageGetBlob writes the
blob bytes over the pointer cell. -/
theorem c7_blob_reinterpret_bug :
    (oscMessageGetArgumentAsRgbaColour c7Message
        { red := 0, green := 0, blue := 0, alpha := 0 }).1
      = .ok { red := 0, green := 0, blue := 0, alpha := 0 }
    ∧ ({ red := 0, green := 0, blue := 0, alpha := 0 } : RgbaColour)
      ≠ { red := 9, green := 8, blue := 7, alpha := 6 }
    ∧ (oscMessageGetArgumentAsMidiMessage c7Message
        { portID := 0, status := 0, data1 := 0, data2 := 0 }).1
      = .ok { portID := 0, status := 0, data1 := 0, data2 := 0 }
    ∧ ({ portID := 0, status := 0, data1 := 0, data2 := 0 } : MidiMessage)
      ≠ { portID := 9, status := 8, data1 := 7, data2 := 6 } := by
  decide

/-- C8 (code bug): encoding the one-byte packet [0x00] with destinationSize 1
returns OscErrorNone after storing two bytes (the data byte and the closing
END at index 1, one past the destination) instead of returning
DestinationTooSmall: the trailing END is written without any bounds check. -/
theorem c8_encode_overflow_bug :
    oscSlipEncodePacket { contents := [0x00], processMessageInstalled := false } 1
      = .ok [0x00, 0xC0]
    ∧ ([0x00, 0xC0] : List Nat).length > 1 := by
  decide

/-- C10: when exactly four bytes remain past the element cursor,
OscBundleIsBundleElementAvailable is false, OscBundleGetBundleElement returns
BundleElementNotAvailable leaving the bundle unchanged, and the dispatch loop
of DeconstructContents stops silently, so a trailing element whose 4-byte
size prefix declares zero-length content is never yielded. -/
theorem c10_trailing_element_not_available (b : OscBundle) (tt : List Nat)
    (h : b.oscBundleElements.length = b.oscBundleElementsIndex + 4) :
    oscBundleIsBundleElementAvailable b = false
    ∧ oscBundleGetBundleElement b = (.error OscErrorBundleElementNotAvailable, b)
    ∧ bundleElementsLoop b.oscBundleElements b.oscBundleElementsIndex tt = ([], none) := by
  refine ⟨?_, ?_, ?_⟩
  · simp [oscBundleIsBundleElementAvailable, h]
  · simp [oscBundleGetBundleElement, h]
  · rw [bundleElementsLoop]
    simp [h]

/-- A successful TerminateOscString appends `4 - len % 4` null bytes and
stays within the maximum size. -/
theorem terminateOscString_ok {l : List Nat} {maxSize : Nat} {out : List Nat}
    (h : terminateOscString l maxSize = some out) :
    out = l ++ List.replicate (4 - l.length % 4) 0
    ∧ out.length = l.length + (4 - l.length % 4)
    ∧ out.length % 4 = 0
    ∧ out.length ≤ maxSize := by
  simp only [terminateOscString] at h
  split at h
  · exact absurd h (by simp)
  · obtain rfl : l ++ List.replicate (4 - l.length % 4) 0 = out := by
      simpa using h
    refine ⟨rfl, by simp,
      by simp only [List.length_append, List.length_replicate]; omega, ?_⟩
    rename_i hle
    simp only [not_lt] at hle
    simp only [List.length_append, List.length_replicate]
    omega

/-- A successful OscMessageToCharArray writes the address pattern, its null
padding, the type tag string, its null padding, then the arguments; the
number of bytes written is OscMessageGetSize and fits the destination. -/
theorem oscMessageToCharArray_ok {m : OscMessage} {destinationSize : Nat}
    {out : List Nat} (h : oscMessageToCharArray m destinationSize = .ok out) :
    out = m.oscAddressPattern
            ++ List.replicate (4 - m.oscAddressPattern.length % 4) 0
            ++ m.oscTypeTagString
            ++ List.replicate (4 - m.oscTypeTagString.length % 4) 0
            ++ m.arguments
    ∧ out.length = oscMessageGetSize m
    ∧ out.length ≤ destinationSize := by
  unfold oscMessageToCharArray at h
  split at h
  · exact absurd h (by simp)
  · split at h
    · exact absurd h (by simp)
    · split at h
      · exact absurd h (by simp)
      · split at h
        · exact absurd h (by simp)
        · rename_i d1 hd1
          obtain ⟨hd1eq, hd1len, hd1mod, hd1le⟩ := terminateOscString_ok hd1
          split at h
          · exact absurd h (by simp)
          · split at h
            · exact absurd h (by simp)
            · rename_i d2 hd2
              obtain ⟨hd2eq, hd2len, hd2mod, hd2le⟩ := terminateOscString_ok hd2
              split at h
              · exact absurd h (by simp)
              · obtain rfl : d2 ++ m.arguments = out := by simpa using h
                have hlen1 : d1.length % 4 = 0 := hd1mod
                have hpad : 4 - (d1 ++ m.oscTypeTagString).length % 4
                    = 4 - m.oscTypeTagString.length % 4 := by
                  simp only [List.length_append]
                  omega
                rw [hpad] at hd2eq
                constructor
                · rw [hd2eq, hd1eq]
                  try simp [List.append_assoc]
                constructor
                · rw [List.length_append, hd2len]
                  simp only [List.length_append, List.length_replicate] at hd1len ⊢
                  simp only [oscMessageGetSize]
                  split <;> split <;> omega
                · rename_i hfits
                  simp only [not_lt, List.length_append] at hfits ⊢
                  omega

/-- A successful OscBundleToCharArray writes the header, the time tag bytes
and the element bytes; with the struct's fixed 8-byte header and time tag the
number of bytes written is OscBundleGetSize and fits the destination. -/
theorem oscBundleToCharArray_ok {b : OscBundle} {destinationSize : Nat}
    {out : List Nat} (hh : b.header.length = 8) (ht : b.oscTimeTag.length = 8)
    (h : oscBundleToCharArray b destinationSize = .ok out) :
    out = b.header ++ b.oscTimeTag ++ b.oscBundleElements
    ∧ out.length = oscBundleGetSize b
    ∧ out.length ≤ destinationSize := by
  unfold oscBundleToCharArray at h
  split at h
  · exact absurd h (by simp)
  · obtain rfl : b.header ++ b.oscTimeTag ++ b.oscBundleElements = out := by
      simpa using h
    rename_i hfits
    simp only [not_lt] at hfits
    refine ⟨rfl, ?_, ?_⟩
    · simp only [oscBundleGetSize, List.length_append, hh, ht]
    · simp only [List.length_append, hh, ht]
      omega

/-- C4: after a successful OscBundleAddContents, the remaining capacity has
decreased by exactly size-of-contents + 4 (the 4 accounting for the element
size prefix), truncated at zero; `oscContentsWf` records that a bundle struct
carries 8-byte header and time tag arrays. -/
theorem c4_capacity (b : OscBundle) (x : OscContents) (b2 : OscBundle)
    (hwf : oscContentsWf x) (h : oscBundleAddContents b x = .ok b2) :
    oscBundleGetRemainingCapacity b2
      = oscBundleGetRemainingCapacity b - (oscContentsGetSize x + 4) := by
  unfold oscBundleAddContents at h
  by_cases hfull : b.oscBundleElements.length + 4 > MAX_OSC_BUNDLE_ELEMENTS_SIZE
  · rw [if_pos hfull] at h
    exact absurd h (by simp)
  · rw [if_neg hfull] at h
    simp only [not_lt] at hfull
    match x with
    | .inl msg =>
      dsimp only at h
      by_cases haddr : msg.oscAddressPattern.headD 0 = 47
      · rw [if_pos haddr] at h
        match hbytes : oscMessageToCharArray msg (oscBundleGetRemainingCapacity b) with
        | .error e =>
          rw [hbytes] at h
          exact absurd h (by simp)
        | .ok bytes =>
          rw [hbytes] at h
          obtain ⟨-, hlen, hle⟩ := oscMessageToCharArray_ok hbytes
          injection h with h2
          subst h2
          simp only [oscContentsGetSize, oscBundleGetRemainingCapacity,
            MAX_OSC_BUNDLE_ELEMENTS_SIZE, MAX_OSC_BUNDLE_SIZE, MAX_TRANSPORT_SIZE,
            List.length_append, uint32ToBeBytes, List.length_cons,
            List.length_nil] at hfull hle ⊢
          rw [← hlen]
          split <;> split <;> omega
      · rw [if_neg haddr] at h
        exact absurd h (by simp)
    | .inr c =>
      dsimp only at h
      by_cases hhash : c.header.headD 0 = 35
      · rw [if_pos hhash] at h
        match hbytes : oscBundleToCharArray c (oscBundleGetRemainingCapacity b) with
        | .error e =>
          rw [hbytes] at h
          exact absurd h (by simp)
        | .ok bytes =>
          rw [hbytes] at h
          obtain ⟨-, hlen, hle⟩ := oscBundleToCharArray_ok hwf.1 hwf.2 hbytes
          injection h with h2
          subst h2
          simp only [oscContentsGetSize, oscBundleGetRemainingCapacity,
            MAX_OSC_BUNDLE_ELEMENTS_SIZE, MAX_OSC_BUNDLE_SIZE, MAX_TRANSPORT_SIZE,
            List.length_append, uint32ToBeBytes, List.length_cons,
            List.length_nil] at hfull hle ⊢
          rw [← hlen]
          split <;> split <;> omega
      · rw [if_neg hhash] at h
        exact absurd h (by simp)

/-- C4 witness: adding the 8-byte message "/a" to a fresh bundle reduces the
remaining capacity from 1452 to 1440 = 1452 - (8 + 4). -/
theorem c4_witness :
    oscBundleAddContents c4Bundle (.inl c4Message) = .ok c4BundleAfter
    ∧ oscBundleGetRemainingCapacity c4BundleAfter
      = oscBundleGetRemainingCapacity c4Bundle
        - (oscContentsGetSize (.inl c4Message) + 4) :=
  ⟨by decide, c4_capacity c4Bundle (.inl c4Message) c4BundleAfter trivial (by decide)⟩

/-- C9: every typed accessor (OscMessageGetInt32, GetFloat32, GetString,
GetBlob, GetInt64, GetTimeTag, GetDouble, GetCharacter, GetRgbaColour,
GetMidiMessage) that returns an error leaves both the type tag cursor
(oscTypeTagStringIndex) and the payload cursor (argumentsIndex) of the
message unchanged. -/
theorem c9_error_preserves_cursors (m : OscMessage) (destinationSize : Nat) :
    (∀ e m2, oscMessageGetInt32 m = (.error e, m2) → cursorsEq m2 m)
    ∧ (∀ e m2, oscMessageGetFloat32 m = (.error e, m2) → cursorsEq m2 m)
    ∧ (∀ e m2, oscMessageGetString m destinationSize = (.error e, m2) → cursorsEq m2 m)
    ∧ (∀ e m2, oscMessageGetBlob m destinationSize = (.error e, m2) → cursorsEq m2 m)
    ∧ (∀ e m2, oscMessageGetInt64 m = (.error e, m2) → cursorsEq m2 m)
    ∧ (∀ e m2, oscMessageGetTimeTag m = (.error e, m2) → cursorsEq m2 m)
    ∧ (∀ e m2, oscMessageGetDouble m = (.error e, m2) → cursorsEq m2 m)
    ∧ (∀ e m2, oscMessageGetCharacter m = (.error e, m2) → cursorsEq m2 m)
    ∧ (∀ e m2, oscMessageGetRgbaColour m = (.error e, m2) → cursorsEq m2 m)
    ∧ (∀ e m2, oscMessageGetMidiMessage m = (.error e, m2) → cursorsEq m2 m) := by
  refine ⟨?_, ?_, ?_, ?_, ?_, ?_, ?_, ?_, ?_, ?_⟩ <;> intro e m2 he
  · unfold oscMessageGetInt32 at he
    try dsimp only at he
    repeat' split at he
    all_goals injection he with h1 h2
    all_goals first
      | (subst h2; exact ⟨rfl, rfl⟩)
      | exact absurd h1 (by simp)
  · unfold oscMessageGetFloat32 at he
    try dsimp only at he
    repeat' split at he
    all_goals injection he with h1 h2
    all_goals first
      | (subst h2; exact ⟨rfl, rfl⟩)
      | exact absurd h1 (by simp)
  · unfold oscMessageGetString at he
    try dsimp only at he
    repeat' split at he
    all_goals injection he with h1 h2
    all_goals first
      | (subst h2; exact ⟨rfl, rfl⟩)
      | exact absurd h1 (by simp)
  · unfold oscMessageGetBlob at he
    try dsimp only at he
    repeat' split at he
    all_goals injection he with h1 h2
    all_goals first
      | (subst h2; exact ⟨rfl, rfl⟩)
      | exact absurd h1 (by simp)
  · unfold oscMessageGetInt64 at he
    try dsimp only at he
    repeat' split at he
    all_goals injection he with h1 h2
    all_goals first
      | (subst h2; exact ⟨rfl, rfl⟩)
      | exact absurd h1 (by simp)
  · unfold oscMessageGetTimeTag at he
    try dsimp only at he
    repeat' split at he
    all_goals injection he with h1 h2
    all_goals first
      | (subst h2; exact ⟨rfl, rfl⟩)
      | exact absurd h1 (by simp)
  · unfold oscMessageGetDouble at he
    try dsimp only at he
    repeat' split at he
    all_goals injection he with h1 h2
    all_goals first
      | (subst h2; exact ⟨rfl, rfl⟩)
      | exact absurd h1 (by simp)
  · unfold oscMessageGetCharacter at he
    try dsimp only at he
    repeat' split at he
    all_goals injection he with h1 h2
    all_goals first
      | (subst h2; exact ⟨rfl, rfl⟩)
      | exact absurd h1 (by simp)
  · unfold oscMessageGetRgbaColour at he
    try dsimp only at he
    repeat' split at he
    all_goals injection he with h1 h2
    all_goals first
      | (subst h2; exact ⟨rfl, rfl⟩)
      | exact absurd h1 (by simp)
  · unfold oscMessageGetMidiMessage at he
    try dsimp only at he
    repeat' split at he
    all_goals injection he with h1 h2
    all_goals first
      | (subst h2; exact ⟨rfl, rfl⟩)
      | exact absurd h1 (by simp)

/-- C9 witness: on a message with no arguments every accessor fails with
NoArgumentsAvailable and both cursors are untouched. -/
theorem c9_witness :
    cursorsEq (oscMessageGetInt32 c9WitnessMessage).2 c9WitnessMessage
    ∧ cursorsEq (oscMessageGetFloat32 c9WitnessMessage).2 c9WitnessMessage
    ∧ cursorsEq (oscMessageGetString c9WitnessMessage 8).2 c9WitnessMessage
    ∧ cursorsEq (oscMessageGetBlob c9WitnessMessage 8).2 c9WitnessMessage
    ∧ cursorsEq (oscMessageGetInt64 c9WitnessMessage).2 c9WitnessMessage
    ∧ cursorsEq (oscMessageGetTimeTag c9WitnessMessage).2 c9WitnessMessage
    ∧ cursorsEq (oscMessageGetDouble c9WitnessMessage).2 c9WitnessMessage
    ∧ cursorsEq (oscMessageGetCharacter c9WitnessMessage).2 c9WitnessMessage
    ∧ cursorsEq (oscMessageGetRgbaColour c9WitnessMessage).2 c9WitnessMessage
    ∧ cursorsEq (oscMessageGetMidiMessage c9WitnessMessage).2 c9WitnessMessage := by
  have T := c9_error_preserves_cursors c9WitnessMessage 8
  exact ⟨T.1 OscErrorNoArgumentsAvailable _ (by decide),
    T.2.1 OscErrorNoArgumentsAvailable _ (by decide),
    T.2.2.1 OscErrorNoArgumentsAvailable _ (by decide),
    T.2.2.2.1 OscErrorNoArgumentsAvailable _ (by decide),
    T.2.2.2.2.1 OscErrorNoArgumentsAvailable _ (by decide),
    T.2.2.2.2.2.1 OscErrorNoArgumentsAvailable _ (by decide),
    T.2.2.2.2.2.2.1 OscErrorNoArgumentsAvailable _ (by decide),
    T.2.2.2.2.2.2.2.1 OscErrorNoArgumentsAvailable _ (by decide),
    T.2.2.2.2.2.2.2.2.1 OscErrorNoArgumentsAvailable _ (by decide),
    T.2.2.2.2.2.2.2.2.2 OscErrorNoArgumentsAvailable _ (by decide)⟩

/-- C10 witness: a parsed bundle whose element area is exactly one zero-size
trailing element prefix. -/
theorem c10_witness :
    oscBundleIsBundleElementAvailable c10Bundle = false
    ∧ oscBundleGetBundleElement c10Bundle
      = (.error OscErrorBundleElementNotAvailable, c10Bundle)
    ∧ bundleElementsLoop c10Bundle.oscBundleElements c10Bundle.oscBundleElementsIndex []
      = ([], none) :=
  c10_trailing_element_not_available c10Bundle [] (by decide)

end Osc99
namespace Osc99

/-- The address-copy loop of OscMessageInitialiseFromCharArray consumes the non-null address characters up to the first null byte. -/
theorem parseAddressLoop_spec (xs : List Nat) :
    ∀ (acc rest : List Nat), (∀ c ∈ xs, c ≠ 0) →
    acc.length + xs.length ≤ MAX_OSC_ADDRESS_PATTERN_LENGTH →
    parseAddressLoop (xs ++ 0 :: rest) acc = .ok (acc ++ xs, 0 :: rest) := by
  induction xs with
  | nil => intro acc rest _ _; simp [parseAddressLoop]
  | cons x xs ih =>
    intro acc rest hnz hlen
    have hx : x ≠ 0 := hnz x (by simp)
    have hlen2 : acc.length + xs.length + 1 ≤ 64 := by
      simp only [List.length_cons, MAX_OSC_ADDRESS_PATTERN_LENGTH] at hlen
      omega
    simp only [List.cons_append, parseAddressLoop, if_neg hx]
    rw [if_neg (by simp only [List.length_append, List.length_cons,
      MAX_OSC_ADDRESS_PATTERN_LENGTH, not_lt]; omega), if_neg (by simp)]
    have hrec := ih (acc ++ [x]) rest (fun c hc => hnz c (by simp [hc]))
      (by simp only [List.length_append, List.length_cons, List.length_nil,
        MAX_OSC_ADDRESS_PATTERN_LENGTH]; omega)
    simpa using hrec

/-- The comma-scan loop of OscMessageInitialiseFromCharArray skips padding null bytes and stops just past the comma, provided the previously read character was not itself a comma. -/
theorem parseCommaScan_spec (k : Nat) :
    ∀ (prev : Nat) (rest : List Nat), prev ≠ 44 → rest ≠ [] →
    parseCommaScan prev (List.replicate k 0 ++ 44 :: rest) = .ok rest := by
  induction k with
  | zero =>
    intro prev rest hp hr
    simp only [List.replicate_zero, List.nil_append]
    unfold parseCommaScan
    rw [if_neg hp]
    dsimp only
    rw [if_neg hr]
    unfold parseCommaScan
    rw [if_pos rfl]
  | succ k ih =>
    intro prev rest hp hr
    simp only [List.replicate_succ, List.cons_append]
    unfold parseCommaScan
    rw [if_neg hp]
    dsimp only
    rw [if_neg (by simp)]
    exact ih 0 rest (by decide) hr

/-- The type-tag-copy loop of OscMessageInitialiseFromCharArray consumes the non-null tag characters up to the first null byte. -/
theorem parseTypeTagLoop_spec (xs : List Nat) :
    ∀ (acc rest : List Nat), (∀ c ∈ xs, c ≠ 0) →
    acc.length + xs.length ≤ MAX_OSC_TYPE_TAG_STRING_LENGTH →
    parseTypeTagLoop (xs ++ 0 :: rest) acc = .ok (acc ++ xs, 0 :: rest) := by
  induction xs with
  | nil => intro acc rest _ _; simp [parseTypeTagLoop]
  | cons x xs ih =>
    intro acc rest hnz hlen
    have hx : x ≠ 0 := hnz x (by simp)
    have hlen2 : acc.length + xs.length + 1 ≤ 17 := by
      simp only [List.length_cons, MAX_OSC_TYPE_TAG_STRING_LENGTH,
        MAX_NUMBER_OF_ARGUMENTS] at hlen
      omega
    simp only [List.cons_append, parseTypeTagLoop, if_neg hx]
    rw [if_neg (by simp only [List.length_append, List.length_cons,
      MAX_OSC_TYPE_TAG_STRING_LENGTH, MAX_NUMBER_OF_ARGUMENTS, not_lt]; omega),
      if_neg (by simp)]
    have hrec := ih (acc ++ [x]) rest (fun c hc => hnz c (by simp [hc]))
      (by simp only [List.length_append, List.length_cons, List.length_nil,
        MAX_OSC_TYPE_TAG_STRING_LENGTH, MAX_NUMBER_OF_ARGUMENTS]; omega)
    simpa using hrec

/-- The alignment scan after the type tag string drops exactly the padding null bytes when the remaining argument bytes are a multiple of four. -/
theorem parseAlignScan_spec (c : Nat) (args : List Nat) (h1 : 1 ≤ c) (h4 : c ≤ 4)
    (hm : args.length % 4 = 0) :
    parseAlignScan (List.replicate c 0 ++ args) = .ok args := by
  simp only [parseAlignScan, List.length_append, List.length_replicate]
  have hcount : (if (c + args.length) % 4 = 0 then 4 else (c + args.length) % 4) = c := by
    split <;> omega
  rw [hcount, if_neg (by omega)]
  rw [List.drop_left' (by simp)]

end Osc99
namespace Osc99

/-- OscMessageToCharArray on a well-formed message lays out the address pattern, its null padding to a four-byte boundary, the type tag string, its null padding, and the argument bytes. -/
theorem oscMessageToCharArray_of_valid (m : OscMessage)
    (hhead : m.oscAddressPattern.headD 0 = 47)
    (halen : m.oscAddressPattern.length ≤ 64)
    (htlen : m.oscTypeTagString.length ≤ 17)
    (hglen : m.arguments.length ≤ 1383) :
    oscMessageToCharArray m MAX_OSC_PACKET_SIZE
      = .ok (m.oscAddressPattern
          ++ List.replicate (4 - m.oscAddressPattern.length % 4) 0
          ++ m.oscTypeTagString
          ++ List.replicate (4 - m.oscTypeTagString.length % 4) 0
          ++ m.arguments) := by
  have hane : m.oscAddressPattern ≠ [] := by
    intro h
    rw [h] at hhead
    simp at hhead
  have halen0 : m.oscAddressPattern.length ≠ 0 := by
    simpa using hane
  unfold oscMessageToCharArray
  rw [if_neg halen0, if_neg (by rw [ne_eq, hhead]; simp),
    if_neg (by simp only [MAX_OSC_PACKET_SIZE, MAX_TRANSPORT_SIZE, not_lt]; omega)]
  have ht1 : terminateOscString m.oscAddressPattern MAX_OSC_PACKET_SIZE
      = some (m.oscAddressPattern
          ++ List.replicate (4 - m.oscAddressPattern.length % 4) 0) := by
    simp only [terminateOscString]
    rw [if_neg (by simp only [MAX_OSC_PACKET_SIZE, MAX_TRANSPORT_SIZE, not_lt]; omega)]
  rw [ht1]
  dsimp only
  rw [if_neg (by simp only [List.length_append, List.length_replicate,
    MAX_OSC_PACKET_SIZE, MAX_TRANSPORT_SIZE, not_lt]; omega)]
  have ht2 : terminateOscString
      ((m.oscAddressPattern ++ List.replicate (4 - m.oscAddressPattern.length % 4) 0)
        ++ m.oscTypeTagString) MAX_OSC_PACKET_SIZE
      = some ((m.oscAddressPattern
            ++ List.replicate (4 - m.oscAddressPattern.length % 4) 0
            ++ m.oscTypeTagString)
          ++ List.replicate (4 - m.oscTypeTagString.length % 4) 0) := by
    simp only [terminateOscString]
    rw [if_neg (by simp only [List.length_append, List.length_replicate,
      MAX_OSC_PACKET_SIZE, MAX_TRANSPORT_SIZE, not_lt]; omega)]
    have hcnt : 4 - (m.oscAddressPattern ++ List.replicate
          (4 - m.oscAddressPattern.length % 4) 0 ++ m.oscTypeTagString).length % 4
        = 4 - m.oscTypeTagString.length % 4 := by
      simp only [List.length_append, List.length_replicate]
      omega
    rw [hcnt]
  rw [ht2]
  dsimp only
  rw [if_neg (by simp only [List.length_append, List.length_replicate,
    MAX_OSC_PACKET_SIZE, MAX_TRANSPORT_SIZE, not_lt]; omega)]
  try simp [List.append_assoc]

end Osc99
namespace Osc99

/-- OscMessageInitialiseFromCharArray on the serialized layout of a well-formed message whose address does not end in a comma recovers the address pattern, type tag string and argument bytes exactly. -/
theorem oscMessageInitialiseFromCharArray_layout
    (arest tags args : List Nat)
    (hanz : ∀ c ∈ arest, c ≠ 0)
    (halast : (47 :: arest).getLastD 0 ≠ 44)
    (halen : arest.length + 1 ≤ 64)
    (htnz : ∀ c ∈ tags, c ≠ 0)
    (htlen : tags.length + 1 ≤ 17)
    (hglen : args.length ≤ 1383)
    (hgmod : args.length % 4 = 0) :
    oscMessageInitialiseFromCharArray
        ((47 :: arest) ++ List.replicate (4 - (arest.length + 1) % 4) 0
          ++ (44 :: tags) ++ List.replicate (4 - (tags.length + 1) % 4) 0 ++ args)
      = .ok { oscAddressPattern := 47 :: arest
              oscTypeTagString := 44 :: tags
              arguments := args
              oscTypeTagStringIndex := 1
              argumentsIndex := 0 } := by
  obtain ⟨k1, hk1⟩ : ∃ k, 4 - (arest.length + 1) % 4 = k + 1 :=
    ⟨3 - (arest.length + 1) % 4, by omega⟩
  obtain ⟨k2, hk2⟩ : ∃ k, 4 - (tags.length + 1) % 4 = k + 1 :=
    ⟨3 - (tags.length + 1) % 4, by omega⟩
  have hk1b : k1 ≤ 3 := by omega
  have hk2b : k2 ≤ 3 := by omega
  have hk1m : (arest.length + 1 + (k1 + 1)) % 4 = 0 := by omega
  have hk2m : (tags.length + 1 + (k2 + 1)) % 4 = 0 := by omega
  rw [hk1, hk2]
  unfold oscMessageInitialiseFromCharArray
  rw [if_neg (by
        simp only [List.length_append, List.length_replicate, List.length_cons]
        omega),
    if_neg (by
        simp only [List.length_append, List.length_replicate, List.length_cons,
          MIN_OSC_MESSAGE_SIZE, not_lt]
        omega),
    if_neg (by
        simp only [List.length_append, List.length_replicate, List.length_cons,
          MAX_OSC_MESSAGE_SIZE, MAX_TRANSPORT_SIZE, not_lt]
        omega),
    if_neg (by simp)]
  have hL1 : (47 :: arest) ++ List.replicate (k1 + 1) 0 ++ (44 :: tags)
        ++ List.replicate (k2 + 1) 0 ++ args
      = (47 :: arest) ++ 0 :: (List.replicate k1 0
          ++ ((44 :: tags) ++ List.replicate (k2 + 1) 0 ++ args)) := by
    simp [List.replicate_succ, List.append_assoc]
  rw [hL1, parseAddressLoop_spec (47 :: arest) []
    (List.replicate k1 0 ++ ((44 :: tags) ++ List.replicate (k2 + 1) 0 ++ args))
    (by
      intro c hcmem
      rcases List.mem_cons.mp hcmem with h | h
      · omega
      · exact hanz c h)
    (by simp only [List.length_nil, List.length_cons, MAX_OSC_ADDRESS_PATTERN_LENGTH]; omega)]
  dsimp only
  have hL2 : (0 : Nat) :: (List.replicate k1 0
        ++ ((44 :: tags) ++ List.replicate (k2 + 1) 0 ++ args))
      = List.replicate (k1 + 1) 0
          ++ 44 :: (tags ++ (List.replicate (k2 + 1) 0 ++ args)) := by
    simp [List.replicate_succ, List.append_assoc]
  rw [List.nil_append, hL2, parseCommaScan_spec (k1 + 1) _ _ halast
    (by simp)]
  dsimp only
  have hL3 : tags ++ (List.replicate (k2 + 1) 0 ++ args)
      = tags ++ 0 :: (List.replicate k2 0 ++ args) := by
    simp [List.replicate_succ]
  rw [hL3, parseTypeTagLoop_spec tags [44] (List.replicate k2 0 ++ args) htnz
    (by simp only [List.length_cons, List.length_nil, MAX_OSC_TYPE_TAG_STRING_LENGTH,
      MAX_NUMBER_OF_ARGUMENTS]; omega)]
  dsimp only
  have hL4 : (0 : Nat) :: (List.replicate k2 0 ++ args)
      = List.replicate (k2 + 1) 0 ++ args := by
    simp [List.replicate_succ]
  rw [hL4, parseAlignScan_spec (k2 + 1) args (by omega) (by omega) hgmod]
  simp

end Osc99
namespace Osc99

/-- C1 (amended): serializing a well-formed OSC message with OscMessageToCharArray and parsing the bytes back with OscMessageInitialiseFromCharArray recovers the same address pattern, type tag string and argument bytes, with the deconstruction cursors reset, provided the address pattern's last character is not a comma. -/
theorem c1_amended (m : OscMessage) (hv : oscMessageValid m = true)
    (hc : m.oscAddressPattern.getLastD 0 ≠ 44) :
    oscMessageRoundTrip m
      = .ok { oscAddressPattern := m.oscAddressPattern
              oscTypeTagString := m.oscTypeTagString
              arguments := m.arguments
              oscTypeTagStringIndex := 1
              argumentsIndex := 0 } := by
  simp only [oscMessageValid, Bool.and_eq_true, decide_eq_true_eq,
    List.all_eq_true] at hv
  obtain ⟨⟨⟨⟨⟨⟨⟨hhead, halen⟩, hanz⟩, hthead⟩, htlen⟩, htnz⟩, hglen⟩, hgmod⟩ := hv
  unfold oscMessageRoundTrip
  rw [oscMessageToCharArray_of_valid m hhead
    (by simpa [MAX_OSC_ADDRESS_PATTERN_LENGTH] using halen)
    (by simpa [MAX_OSC_TYPE_TAG_STRING_LENGTH, MAX_NUMBER_OF_ARGUMENTS] using htlen)
    (by simpa [MAX_ARGUMENTS_SIZE] using hglen)]
  dsimp only
  obtain ⟨arest, hA⟩ : ∃ arest, m.oscAddressPattern = 47 :: arest := by
    cases hAp : m.oscAddressPattern with
    | nil => rw [hAp] at hhead; simp at hhead
    | cons x xs =>
      rw [hAp] at hhead
      simp only [List.headD_cons] at hhead
      exact ⟨xs, by rw [hhead]⟩
  obtain ⟨tags, hT⟩ : ∃ tags, m.oscTypeTagString = 44 :: tags := by
    cases hTp : m.oscTypeTagString with
    | nil => rw [hTp] at hthead; simp at hthead
    | cons x xs =>
      rw [hTp] at hthead
      simp only [List.headD_cons] at hthead
      exact ⟨xs, by rw [hthead]⟩
  rw [hA, hT]
  simp only [List.length_cons]
  exact oscMessageInitialiseFromCharArray_layout arest tags m.arguments
    (fun c hcm => hanz c (by rw [hA]; exact List.mem_cons_of_mem _ hcm))
    (by rw [hA] at hc; exact hc)
    (by rw [hA] at halen
        simp only [List.length_cons, MAX_OSC_ADDRESS_PATTERN_LENGTH] at halen
        omega)
    (fun c hcm => htnz c (by rw [hT]; exact List.mem_cons_of_mem _ hcm))
    (by rw [hT] at htlen
        simp only [List.length_cons, MAX_OSC_TYPE_TAG_STRING_LENGTH,
          MAX_NUMBER_OF_ARGUMENTS] at htlen
        omega)
    (by simpa [MAX_ARGUMENTS_SIZE] using hglen)
    hgmod

end Osc99
namespace Osc99

/-- C1 counterexample: the message with address pattern "/," and no arguments satisfies every condition of the original claim, yet the round trip mis-parses it, returning the type-tag bytes as argument data because the comma scan of OscMessageInitialiseFromCharArray is fooled by the trailing comma of the address. -/
theorem c1_counterexample :
    oscMessageValid c1CounterMessage = true
    ∧ c1CounterMessage.oscAddressPattern.getLastD 0 = 44
    ∧ oscMessageRoundTrip c1CounterMessage
        = .ok { oscAddressPattern := [47, 44], oscTypeTagString := [44]
                arguments := [44, 0, 0, 0]
                oscTypeTagStringIndex := 1, argumentsIndex := 0 }
    ∧ ([44, 0, 0, 0] : List Nat) ≠ c1CounterMessage.arguments := by decide

/-- C1 witness: the round trip at the concrete scenario message "/t" with int32, float32, string and blob arguments. -/
theorem c1_witness :
    oscMessageRoundTrip c1WitnessMessage
      = .ok { oscAddressPattern := [47, 116]
              oscTypeTagString := [44, 105, 102, 115, 98]
              arguments := [0, 0, 0, 1, 64, 32, 0, 0, 104, 105, 0, 0,
                0, 0, 0, 3, 170, 187, 204, 0]
              oscTypeTagStringIndex := 1
              argumentsIndex := 0 } :=
  c1_amended c1WitnessMessage (by decide) (by decide)

end Osc99
namespace Osc99

/-- Decoding the 4-byte big-endian encoding of a 32-bit value recovers the value (bundle element size prefixes). -/
theorem beBytesToNat_uint32 (n : Nat) (h : n < 2 ^ 32) :
    beBytesToNat (uint32ToBeBytes n) = n := by
  simp only [uint32ToBeBytes, beBytesToNat, List.foldl]
  omega

/-- An Except value is ok exactly when it carries a success value. -/
theorem except_isOk_iff {ε α : Type} (e : Except ε α) :
    e.isOk = true ↔ ∃ b, e = .ok b := by
  cases e <;> simp [Except.isOk, Except.toBool]

/-- A source byte array accepted by OscMessageInitialiseFromCharArray starts with a slash and has a size that is a multiple of four, at least the minimum message size and at most the maximum transport size. -/
theorem parse_ok_facts (bytes : List Nat)
    (h : (oscMessageInitialiseFromCharArray bytes).isOk = true) :
    bytes.headD 0 = 47 ∧ bytes.length % 4 = 0
      ∧ 8 ≤ bytes.length ∧ bytes.length ≤ 1472 := by
  rw [except_isOk_iff] at h
  obtain ⟨m, hm⟩ := h
  unfold oscMessageInitialiseFromCharArray at hm
  simp only [MIN_OSC_MESSAGE_SIZE, MAX_OSC_MESSAGE_SIZE, MAX_TRANSPORT_SIZE] at hm
  repeat' split at hm
  all_goals simp_all

end Osc99
namespace Osc99

mutual

/-- The serialization of a well-formed contents tree is a multiple of four bytes, at least the minimum message size and at most the maximum transport size. -/
theorem serializeTree_length_facts (t : OscTree) (hw : wfTree t = true) :
    (serializeTree t).length % 4 = 0 ∧ 8 ≤ (serializeTree t).length
      ∧ (serializeTree t).length ≤ 1472 := by
  cases t with
  | message bytes =>
    simp only [wfTree] at hw
    obtain ⟨-, h2, h3, h4⟩ := parse_ok_facts bytes hw
    exact ⟨h2, h3, h4⟩
  | bundle timeTag elements =>
    simp only [wfTree, Bool.and_eq_true, decide_eq_true_eq] at hw
    obtain ⟨⟨htt, hsz⟩, hels⟩ := hw
    have hmod := serializeTreeElements_length_facts elements hels
    simp only [serializeTree, List.length_append, OSC_BUNDLE_HEADER]
    simp only [List.length_append, MAX_OSC_BUNDLE_SIZE, MAX_TRANSPORT_SIZE,
      OSC_BUNDLE_HEADER] at hsz
    simp only [List.length_cons, List.length_nil] at *
    omega

/-- The serialized bundle elements of a well-formed element list occupy a multiple of four bytes. -/
theorem serializeTreeElements_length_facts (ts : List OscTree)
    (hw : wfTreeList ts = true) :
    (serializeTreeElements ts).length % 4 = 0 := by
  cases ts with
  | nil => simp [serializeTreeElements]
  | cons t ts =>
    simp only [wfTreeList, Bool.and_eq_true] at hw
    obtain ⟨hw1, hw2⟩ := hw
    have h1 := serializeTree_length_facts t hw1
    have h2 := serializeTreeElements_length_facts ts hw2
    simp only [serializeTreeElements, List.length_append, uint32ToBeBytes,
      List.length_cons, List.length_nil]
    omega

end

end Osc99
namespace Osc99

mutual

/-- DeconstructContents on the serialization of a well-formed contents tree yields exactly the tree's messages in depth-first pre-order, each with the time tag of its innermost enclosing bundle, and no error. -/
theorem deconstruct_serializeTree (t : OscTree) (hw : wfTree t = true)
    (tt0 : Option (List Nat)) :
    deconstructContents (serializeTree t) tt0 = (treeMessages t tt0, none) := by
  cases t with
  | message bytes =>
    simp only [wfTree] at hw
    obtain ⟨hhead, hmod, hmin, hmax⟩ := parse_ok_facts bytes hw
    obtain ⟨m, hm⟩ := (except_isOk_iff _).mp hw
    simp only [serializeTree, treeMessages, hm]
    rw [deconstructContents, if_neg (by omega), if_pos hhead, hm]
  | bundle timeTag elements =>
    simp only [wfTree, Bool.and_eq_true, decide_eq_true_eq] at hw
    obtain ⟨⟨htt, hsz⟩, hels⟩ := hw
    have helmod := serializeTreeElements_length_facts elements hels
    have hlen16 : (OSC_BUNDLE_HEADER ++ timeTag ++ serializeTreeElements elements).length
        = 16 + (serializeTreeElements elements).length := by
      simp [OSC_BUNDLE_HEADER, htt]
      omega
    have hszn : (OSC_BUNDLE_HEADER ++ timeTag ++ serializeTreeElements elements).length
        ≤ 1472 := by
      simpa [MAX_OSC_BUNDLE_SIZE, MAX_TRANSPORT_SIZE] using hsz
    have hhd : (OSC_BUNDLE_HEADER ++ timeTag ++ serializeTreeElements elements).headD 0
        = 35 := by
      simp [OSC_BUNDLE_HEADER]
    have httb : ((OSC_BUNDLE_HEADER ++ timeTag ++ serializeTreeElements elements).drop 8).take 8
        = timeTag := by
      rw [List.append_assoc, List.drop_left' (by simp [OSC_BUNDLE_HEADER]),
        List.take_left' htt]
    simp only [serializeTree, treeMessages]
    rw [deconstructContents, if_neg (by omega), if_neg (by rw [hhd]; omega),
      if_pos hhd, if_neg (by omega),
      if_neg (by simp only [MIN_OSC_BUNDLE_SIZE, not_lt]; omega),
      if_neg (by simp only [MAX_OSC_BUNDLE_SIZE, MAX_TRANSPORT_SIZE, not_lt]; omega)]
    rw [httb]
    cases elements with
    | nil =>
      rw [if_pos (by simp [OSC_BUNDLE_HEADER, htt, serializeTreeElements])]
      rw [bundleElementsLoop, dif_neg (by simp)]
      simp [treeMessagesList]
    | cons t ts =>
      have hwt : wfTree t = true := by
        simp only [wfTreeList, Bool.and_eq_true] at hels
        exact hels.1
      obtain ⟨-, ht8, -⟩ := serializeTree_length_facts t hwt
      rw [if_neg (by
        simp only [hlen16, serializeTreeElements, List.length_append,
          uint32ToBeBytes, List.length_cons, List.length_nil]
        omega)]
      rw [show (OSC_BUNDLE_HEADER ++ timeTag ++ serializeTreeElements (t :: ts)).drop 16
          = serializeTreeElements (t :: ts) from
        List.drop_left' (by simp [OSC_BUNDLE_HEADER, htt])]
      exact bundleElementsLoop_serialized (t :: ts) (serializeTreeElements (t :: ts))
        [] timeTag 0 hels (by simp) (by simp)

/-- The bundle element iteration of DeconstructContents, started at the end of an already-consumed prefix, visits the serialized elements in buffer order and yields their messages paired with the enclosing time tag. -/
theorem bundleElementsLoop_serialized (els : List OscTree)
    (area done ttB : List Nat) (idx : Nat) (hw : wfTreeList els = true)
    (harea : area = done ++ serializeTreeElements els)
    (hidx : idx = done.length) :
    bundleElementsLoop area idx ttB = (treeMessagesList els ttB, none) := by
  cases els with
  | nil =>
    rw [bundleElementsLoop, dif_neg (by
      rw [harea, hidx]
      simp [serializeTreeElements])]
    simp [treeMessagesList]
  | cons t ts =>
    simp only [wfTreeList, Bool.and_eq_true] at hw
    obtain ⟨hw1, hw2⟩ := hw
    obtain ⟨hm4, hm8, hmx⟩ := serializeTree_length_facts t hw1
    have hlenarea : area.length
        = done.length + 4 + (serializeTree t).length
            + (serializeTreeElements ts).length := by
      rw [harea]
      simp [serializeTreeElements, uint32ToBeBytes]
      omega
    have h1 : (area.drop idx).take 4
        = uint32ToBeBytes (serializeTree t).length := by
      rw [harea, hidx, List.drop_left]
      rw [show serializeTreeElements (t :: ts)
          = uint32ToBeBytes (serializeTree t).length
              ++ (serializeTree t ++ serializeTreeElements ts) from by
        simp [serializeTreeElements, List.append_assoc]]
      exact List.take_left' (by simp [uint32ToBeBytes])
    have h2 : (area.drop (idx + 4)).take (serializeTree t).length
        = serializeTree t := by
      rw [harea, hidx]
      rw [show done ++ serializeTreeElements (t :: ts)
          = (done ++ uint32ToBeBytes (serializeTree t).length)
              ++ (serializeTree t ++ serializeTreeElements ts) from by
        simp [serializeTreeElements, List.append_assoc]]
      rw [List.drop_left' (by simp [uint32ToBeBytes])]
      exact List.take_left _ _
    have hrec1 : deconstructContents (serializeTree t) (some ttB)
        = (treeMessages t (some ttB), none) :=
      deconstruct_serializeTree t hw1 (some ttB)
    have hrec2 : bundleElementsLoop area (idx + 4 + (serializeTree t).length) ttB
        = (treeMessagesList ts ttB, none) :=
      bundleElementsLoop_serialized ts area
        (done ++ uint32ToBeBytes (serializeTree t).length ++ serializeTree t) ttB
        (idx + 4 + (serializeTree t).length) hw2
        (by rw [harea]; simp [serializeTreeElements, List.append_assoc])
        (by simp only [List.length_append, uint32ToBeBytes, List.length_cons,
              List.length_nil, hidx])
    rw [bundleElementsLoop, dif_pos (by omega), h1,
      beBytesToNat_uint32 _ (by omega)]
    rw [if_neg (by omega), if_neg (by omega), if_neg (by omega)]
    rw [h2, hrec1]
    dsimp only
    rw [hrec2]
    simp [treeMessagesList]

end

end Osc99
namespace Osc99

/-- DeconstructContents on a three-element bundle whose second element fails to parse delivers the first element's message, then stops and returns the parse error; the third element is never visited. -/
theorem deconstruct_error_propagation
    (e1 e2 e3 ttB : List Nat) (m1 : OscMessage) (err : OscError)
    (htt : ttB.length = 8)
    (h2mod : e2.length % 4 = 0) (h3mod : e3.length % 4 = 0)
    (h2max : e2.length ≤ 1400) (h3max : e3.length ≤ 1400)
    (hlen : 28 + e1.length + e2.length + e3.length ≤ 1472)
    (h2hd : e2.headD 0 = 47)
    (hp1 : oscMessageInitialiseFromCharArray e1 = .ok m1)
    (hp2 : oscMessageInitialiseFromCharArray e2 = .error err) :
    deconstructContents
        (OSC_BUNDLE_HEADER ++ (ttB ++ (uint32ToBeBytes e1.length
          ++ (e1 ++ (uint32ToBeBytes e2.length
          ++ (e2 ++ (uint32ToBeBytes e3.length ++ e3))))))) none
      = ([(some ttB, m1)], some err) := by
  obtain ⟨h1hd, h1mod, h1min, h1max⟩ :=
    parse_ok_facts e1 ((except_isOk_iff _).mpr ⟨m1, hp1⟩)
  have h2ne : e2.length ≠ 0 := by
    intro h0
    rw [List.length_eq_zero.mp h0] at h2hd
    simp at h2hd
  have hLsrc : (OSC_BUNDLE_HEADER ++ (ttB ++ (uint32ToBeBytes e1.length
        ++ (e1 ++ (uint32ToBeBytes e2.length
        ++ (e2 ++ (uint32ToBeBytes e3.length ++ e3))))))).length
      = 28 + e1.length + e2.length + e3.length := by
    simp only [List.length_append, OSC_BUNDLE_HEADER, uint32ToBeBytes,
      List.length_cons, List.length_nil, htt]
    omega
  rw [deconstructContents, if_neg (by omega),
    if_neg (by simp [OSC_BUNDLE_HEADER]),
    if_pos (by simp [OSC_BUNDLE_HEADER]),
    if_neg (by omega),
    if_neg (by simp only [MIN_OSC_BUNDLE_SIZE, not_lt]; omega),
    if_neg (by simp only [MAX_OSC_BUNDLE_SIZE, MAX_TRANSPORT_SIZE, not_lt]; omega)]
  rw [List.drop_left' (by simp [OSC_BUNDLE_HEADER]), List.take_left' htt]
  rw [if_neg (by omega)]
  rw [show (OSC_BUNDLE_HEADER ++ (ttB ++ (uint32ToBeBytes e1.length
        ++ (e1 ++ (uint32ToBeBytes e2.length
        ++ (e2 ++ (uint32ToBeBytes e3.length ++ e3))))))).drop 16
      = uint32ToBeBytes e1.length
          ++ (e1 ++ (uint32ToBeBytes e2.length
          ++ (e2 ++ (uint32ToBeBytes e3.length ++ e3)))) from by
    rw [← List.append_assoc]
    exact List.drop_left' (by simp [OSC_BUNDLE_HEADER, htt])]
  have hArea : (uint32ToBeBytes e1.length
        ++ (e1 ++ (uint32ToBeBytes e2.length
        ++ (e2 ++ (uint32ToBeBytes e3.length ++ e3))))).length
      = 12 + e1.length + e2.length + e3.length := by
    simp only [List.length_append, uint32ToBeBytes, List.length_cons,
      List.length_nil]
    omega
  rw [bundleElementsLoop, dif_pos (by omega)]
  rw [List.drop_zero, List.take_left' (by simp [uint32ToBeBytes]),
    beBytesToNat_uint32 _ (by omega)]
  rw [if_neg (by omega), if_neg (by omega), if_neg (by omega)]
  rw [show ((uint32ToBeBytes e1.length
        ++ (e1 ++ (uint32ToBeBytes e2.length
        ++ (e2 ++ (uint32ToBeBytes e3.length ++ e3))))).drop (0 + 4)).take e1.length
      = e1 from by
    rw [List.drop_left' (by simp [uint32ToBeBytes]), List.take_left _ _]]
  rw [show deconstructContents e1 (some ttB) = ([(some ttB, m1)], none) from by
    rw [deconstructContents, if_neg (by omega), if_pos h1hd, hp1]]
  dsimp only
  rw [bundleElementsLoop, dif_pos (by omega)]
  rw [show ((uint32ToBeBytes e1.length
        ++ (e1 ++ (uint32ToBeBytes e2.length
        ++ (e2 ++ (uint32ToBeBytes e3.length ++ e3))))).drop (0 + 4 + e1.length)).take 4
      = uint32ToBeBytes e2.length from by
    rw [← List.append_assoc]
    rw [List.drop_left' (by simp [uint32ToBeBytes]; omega)]
    exact List.take_left' (by simp [uint32ToBeBytes])]
  rw [beBytesToNat_uint32 _ (by omega)]
  rw [if_neg (by omega), if_neg (by omega), if_neg (by omega)]
  rw [show ((uint32ToBeBytes e1.length
        ++ (e1 ++ (uint32ToBeBytes e2.length
        ++ (e2 ++ (uint32ToBeBytes e3.length ++ e3))))).drop (0 + 4 + e1.length + 4)).take
          e2.length
      = e2 from by
    rw [← List.append_assoc, ← List.append_assoc]
    rw [List.drop_left' (by simp [uint32ToBeBytes]; omega)]
    exact List.take_left _ _]
  rw [show deconstructContents e2 (some ttB) = ([], some err) from by
    rw [deconstructContents, if_neg (by omega), if_pos h2hd, hp2]]
  simp

end Osc99
namespace Osc99

open OscError

/-- C2: OscPacketProcessMessages on a packet holding the serialization of any well-formed contents tree invokes the handler once per contained message in depth-first pre-order (bundle elements in buffer order), passing the time tag of the innermost enclosing bundle and no time tag for a bare message, with no error; and on a bundle whose second element fails to parse it delivers the first element's message, stops, and propagates the element's parse error without visiting the remaining element. -/
theorem c2_process_messages_preorder :
    (∀ t : OscTree, wfTree t = true →
      oscPacketProcessMessages
          { contents := serializeTree t, processMessageInstalled := true }
        = (treeMessages t none, none))
    ∧ (∀ (e1 e2 e3 ttB : List Nat) (m1 : OscMessage) (err : OscError),
        ttB.length = 8 → e2.length % 4 = 0 → e3.length % 4 = 0 →
        e2.length ≤ 1400 → e3.length ≤ 1400 →
        28 + e1.length + e2.length + e3.length ≤ 1472 →
        e2.headD 0 = 47 →
        oscMessageInitialiseFromCharArray e1 = .ok m1 →
        oscMessageInitialiseFromCharArray e2 = .error err →
        oscPacketProcessMessages
            { contents := OSC_BUNDLE_HEADER ++ (ttB ++ (uint32ToBeBytes e1.length
                ++ (e1 ++ (uint32ToBeBytes e2.length
                ++ (e2 ++ (uint32ToBeBytes e3.length ++ e3))))))
              processMessageInstalled := true }
          = ([(some ttB, m1)], some err)) := by
  constructor
  · intro t hw
    rw [oscPacketProcessMessages, if_neg (by simp)]
    exact deconstruct_serializeTree t hw none
  · intro e1 e2 e3 ttB m1 err htt h2mod h3mod h2max h3max hlen h2hd hp1 hp2
    rw [oscPacketProcessMessages, if_neg (by simp)]
    exact deconstruct_error_propagation e1 e2 e3 ttB m1 err htt h2mod h3mod
      h2max h3max hlen h2hd hp1 hp2

/-- C2 witness: the spec scenario bundle (time tag one second, messages "/a" and "/b", and a nested zero-time-tag bundle holding "/c") processed at concrete bytes, and a concrete three-element bundle whose second element lacks a type tag string. -/
theorem c2_witness :
    oscPacketProcessMessages
        { contents := serializeTree c2OuterBundle, processMessageInstalled := true }
      = (treeMessages c2OuterBundle none, none)
    ∧ oscPacketProcessMessages
        { contents := OSC_BUNDLE_HEADER ++ ([0, 0, 0, 1, 0, 0, 0, 0]
            ++ (uint32ToBeBytes ([47, 97, 0, 0, 44, 0, 0, 0] : List Nat).length
            ++ ([47, 97, 0, 0, 44, 0, 0, 0]
            ++ (uint32ToBeBytes ([47, 98, 0, 0, 0, 0, 0, 0] : List Nat).length
            ++ ([47, 98, 0, 0, 0, 0, 0, 0]
            ++ (uint32ToBeBytes ([47, 99, 0, 0, 44, 0, 0, 0] : List Nat).length
            ++ [47, 99, 0, 0, 44, 0, 0, 0]))))))
          processMessageInstalled := true }
      = ([(some [0, 0, 0, 1, 0, 0, 0, 0],
            { oscAddressPattern := [47, 97], oscTypeTagString := [44]
              arguments := [], oscTypeTagStringIndex := 1, argumentsIndex := 0 })],
          some OscErrorSourceEndsBeforeStartOfTypeTagString) :=
  ⟨c2_process_messages_preorder.1 c2OuterBundle (by decide),
    c2_process_messages_preorder.2
      [47, 97, 0, 0, 44, 0, 0, 0] [47, 98, 0, 0, 0, 0, 0, 0]
      [47, 99, 0, 0, 44, 0, 0, 0] [0, 0, 0, 1, 0, 0, 0, 0]
      { oscAddressPattern := [47, 97], oscTypeTagString := [44]
        arguments := [], oscTypeTagStringIndex := 1, argumentsIndex := 0 }
      OscErrorSourceEndsBeforeStartOfTypeTagString
      (by decide) (by decide) (by decide) (by decide) (by decide) (by decide)
      (by decide) (by decide) (by decide)⟩

end Osc99
